import Mathlib

/-!
Shallow embedding of the grapi request pipeline (Go package `grapi`).

The embedding follows the source files:
* `route_options.go` — `RouteOptions` and `RouteOptions.Initialise`;
* `request.go` — the per-request structure and the built-in stages
  (`GetItemById`, `GetItems`, `ParseUpload`, `PatchResultWithUploaded`,
  `PostDB`, `PatchDB`, `DeleteFromDB`, `SerialiseResult`);
* `api.go` — the `Grapi` structure and the five verb handlers, each a
  short-circuiting conjunction of stages;
* `auth.go` — the default JWT authenticator.

External collaborators (gorm, the JSON codec, the JWT codec, the router)
are modelled as small abstract values: a data-store handle carries the
records it can see plus error flags for its write operations, a request
body is either malformed or a parsed field overlay, and a bearer token is
the outcome of the token-codec collaborator
(absent / invalid / valid-with-subject).

The per-request state is instrumented with three append-only logs that
make the claims statable: `executed` (names of stages that actually ran),
`responses` (every HTTP status/body written), and `writes` / `reads`
(every data-store write or read lookup together with the handle used).
-/

/-- A model record.  The Go code is generic over the model type via
reflection; the essential structure for the pipeline is an identity field
(`id`, the `gorm:"primary_key"` field read by `getID`) plus other data,
summarised here by one `name` field. -/
structure Item where
  id : Nat
  name : String
deriving DecidableEq, Repr

/-- The zero value produced by `reflect.New(r.Type)` in Go. -/
def itemZero : Item := { id := 0, name := "" }

/-- A gorm data-store handle (`*gorm.DB`).  `records` are the rows the
handle can see (a `Where`-narrowed handle sees fewer rows), `tag`
distinguishes handle values, and the error flags say whether the
collaborator reports an error on `Create` / `Save`. -/
structure DB where
  tag : Nat := 0
  records : List Item := []
  createError : Bool := false
  saveError : Bool := false
deriving DecidableEq, Repr

/-- Lookup `db.Where("table.id = ?", id).Find(item)`: lookup of a record by its
identity column through a handle. -/
def DB.findById (db : DB) (i : Nat) : Option Item :=
  db.records.find? (fun it => it.id == i)

/-- The value stored in `request.Result` (`interface{}` in Go): a single
item (set by `GetItemById`, `PostDB`, `PatchDB`), a slice of items (set by
`GetItems`), or an arbitrary object installed by an `EditResult` callback,
of which the serializer only observes whether JSON encoding succeeds. -/
inductive ResultVal where
  | item (i : Item)
  | items (l : List Item)
  | custom (encodable : Bool)
deriving DecidableEq, Repr

/-- Whether `json.Encode` succeeds on a result value.  Items and slices of
items always encode; an arbitrary object set by `EditResult` may not. -/
def encodes : ResultVal → Bool
  | .item _ => true
  | .items _ => true
  | .custom b => b

/-- A response body, kept structured so that claims about the body shape
(plain text, the `errors` map of a failed validation, or the serialised
result) are statable without a JSON printer. -/
inductive RespBody where
  | empty
  | text (s : String)
  | errors (m : List (String × String))
  | jsonResult (v : ResultVal)
deriving DecidableEq, Repr

/-- One HTTP response write: a status code and a body. -/
structure Resp where
  status : Nat
  body : RespBody
deriving DecidableEq, Repr

/-- A parsed JSON request body: a field overlay (`json.Unmarshal` into an
existing struct only overwrites the fields present in the JSON). -/
structure Patch where
  id : Option Nat := none
  name : Option String := none
deriving DecidableEq, Repr

/-- The request body as seen by the JSON collaborator: malformed, or a
well-formed object parsing to a field overlay. -/
inductive Body where
  | malformed
  | json (p : Patch)
deriving DecidableEq, Repr

/-- Overlay semantics of `json.Unmarshal(body, target)`: overlay the fields present in the
JSON onto the target struct. -/
def applyPatch (p : Patch) (it : Item) : Item :=
  { id := p.id.getD it.id, name := p.name.getD it.name }

/-- Outcome of the external token codec (`jwt.ParseFromRequest` plus the
`token.Valid` check, which covers expiry and signature verification with
the configured key): no token, an invalid/expired/mis-signed token, or a
valid token carrying the subject id from the `id` claim. -/
inductive TokenParse where
  | absent
  | invalid
  | valid (subject : Nat)
deriving DecidableEq, Repr

/-- The principal resolved by the login-model collaborator (the concrete
user object is opaque to the pipeline). -/
abbrev Principal := Nat

/-- The `LoginModel` collaborator: `GetById` resolves a subject id to a
principal or reports an error (`none`). -/
structure LoginModel where
  getById : Nat → Option Principal

/-- Go `Options`: process-wide configuration shared by every route. -/
structure Options where
  jwtKey : String := ""
  loginModel : LoginModel := ⟨fun _ => none⟩
  uriPrefixStr : String := "/api"

/-- The model type a route is built for (Go passes a `reflect.Type`):
its table/plural name as computed by the out-of-scope pluralization
helper, and the optional `NeedsValidation` capability of the type
(`ValidateUpload` returning an error map, `[]` meaning no errors). -/
structure Model where
  tableName : String := ""
  validate : Option (Item → List (String × String)) := none

/-- Modelled from the spec: `pluralCamelNameType` lives in `utils.go`,
which is not among the provided sources; the spec treats pluralization as
a pure string-derivation collaborator, so the derived name is carried as a
field of the model type. -/
def pluralCamelNameType (ty : Model) : String := ty.tableName

/-- One data-store write operation, with the payload handed to gorm. -/
inductive StoreOp where
  | create (i : Option Item)
  | save (i : Option Item)
  | del (v : Option ResultVal)
deriving DecidableEq, Repr

/-- A logged data-store write: the operation and the handle it went
through. -/
structure StoreEv where
  db : DB
  op : StoreOp
deriving DecidableEq, Repr

/-- The per-request structure (`request` in Go), instrumented with
append-only logs of executed stage names, written responses, data-store
writes and data-store read lookups.  The Go fields `C`, `W`, `R` (the
transport objects) are represented by the logs; the `options` back
pointer is unused by every stage and omitted to keep the callback types
non-recursive. -/
structure Req where
  idParam : Nat
  body : Body
  token : TokenParse
  method : String
  tableName : String
  model : Model
  db : DB
  apiDb : DB
  options : Options
  result : Option ResultVal := none
  uploaded : Option Item := none
  loginObject : Option Principal := none
  data : Option Nat := none
  responses : List Resp := []
  writes : List StoreEv := []
  reads : List DB := []
  executed : List String := []

/-- Append one response write (`http.Error` / `WriteHeader`+body). -/
def respond (status : Nat) (b : RespBody) (r : Req) : Req :=
  { r with responses := r.responses ++ [⟨status, b⟩] }

/-- Record that the named stage started executing. -/
def logStage (n : String) (r : Req) : Req :=
  { r with executed := r.executed ++ [n] }

/-- Helper `getID`: reflective read of the `ID` field of the result; errors
(`none`) when the result is not a struct with an `ID` field. -/
def getID : Option ResultVal → Option Nat
  | some (.item it) => some it.id
  | _ => none

/-- Stage `request.GetItemById`: look up the `:id` URL parameter through the
per-request handle `r.db`; not-found writes a 404 and fails, otherwise
the record becomes the result. -/
def getItemById (r : Req) : Bool × Req :=
  let r := logStage "GetItemById" r
  let r := { r with reads := r.reads ++ [r.db] }
  match r.db.findById r.idParam with
  | none => (false, respond 404 (.text "Not Found") r)
  | some item => (true, { r with result := some (.item item) })

/-- Stage `request.GetItems`: fetch every record visible through the
per-request handle; the result is always a (possibly empty) slice and the
stage always succeeds. -/
def getItems (r : Req) : Bool × Req :=
  let r := logStage "GetItems" r
  let r := { r with reads := r.reads ++ [r.db] }
  (true, { r with result := some (.items r.db.records) })

/-- The validation step shared by `ParseUpload` and
`PatchResultWithUploaded`: if the model type offers the `NeedsValidation`
capability and the error map is non-empty, write 422 carrying the error
map and fail. -/
def validateUploaded (r : Req) : Bool × Req :=
  match r.model.validate, r.uploaded with
  | some v, some item =>
      let errs := v item
      if errs ≠ [] then (false, respond 422 (.errors errs) r)
      else (true, r)
  | _, _ => (true, r)

/-- Stage `request.ParseUpload`: deserialise the body into a fresh zero
instance of the model type; malformed JSON writes a bare 422 and fails;
then the validation capability is invoked. -/
def parseUpload (r : Req) : Bool × Req :=
  let r := logStage "ParseUpload" r
  match r.body with
  | .malformed => (false, respond 422 .empty r)
  | .json p =>
      let r := { r with uploaded := some (applyPatch p itemZero) }
      validateUploaded r

/-- Stage `request.PatchResultWithUploaded`: record the identity field of the
already-fetched result, overlay the body onto it in place, and fail with
a bare 422 if the identity changed; otherwise the merged record becomes
the upload and validation is invoked.  When the result is not a struct
with an identity field (never the case in the chains, where `GetItemById`
runs first) `json.Unmarshal` fails and a bare 422 is written. -/
def patchResultWithUploaded (r : Req) : Bool × Req :=
  let r := logStage "PatchResultWithUploaded" r
  match r.body with
  | .malformed => (false, respond 422 .empty r)
  | .json p =>
      match r.result with
      | some (.item it) =>
          let merged := applyPatch p it
          let r := { r with result := some (.item merged) }
          if it.id ≠ merged.id then (false, respond 422 .empty r)
          else
            let r := { r with uploaded := some merged }
            validateUploaded r
      | _ => (false, respond 422 .empty r)

/-- Stage `request.PostDB`: create the upload through the original unscoped
handle `r.api.db`; a collaborator error writes a bare 422 and fails,
otherwise the upload becomes the result. -/
def postDB (r : Req) : Bool × Req :=
  let r := logStage "PostDB" r
  let r := { r with writes := r.writes ++ [({ db := r.apiDb, op := .create r.uploaded } : StoreEv)] }
  if r.apiDb.createError then (false, respond 422 .empty r)
  else (true, { r with result := r.uploaded.map ResultVal.item })

/-- Stage `request.PatchDB`: save the upload through the original unscoped
handle `r.api.db`.  The collaborator's error is discarded and the stage
always succeeds. -/
def patchDB (r : Req) : Bool × Req :=
  let r := logStage "PatchDB" r
  let r := { r with writes := r.writes ++ [({ db := r.apiDb, op := .save r.uploaded } : StoreEv)] }
  (true, { r with result := r.uploaded.map ResultVal.item })

/-- Stage `request.DeleteFromDB`: delete the result through the original
unscoped handle `r.api.db`; always succeeds. -/
def deleteFromDB (r : Req) : Bool × Req :=
  let r := logStage "DeleteFromDB" r
  let r := { r with writes := r.writes ++ [({ db := r.apiDb, op := .del r.result } : StoreEv)] }
  (true, r)

/-- Stage `request.SerialiseResult`: a `nil` result writes 404; an encoding
error writes 422; otherwise the encoded result is written with 200. -/
def serialiseResult (r : Req) : Bool × Req :=
  let r := logStage "SerialiseResult" r
  match r.result with
  | none => (false, respond 404 (.text "Not Found") r)
  | some v =>
      if encodes v then (true, respond 200 (.jsonResult v) r)
      else (false, respond 422 (.text "Failed to encode JSON") r)

/-!
## Callbacks and their capability views

Each user-supplied stage is typed by what its Go interface lets it do.
The callback reads the request and returns its boolean verdict together
with a record of the effects its view permits: `ReqToAuthenticate` can
write responses and set the login object; `ReqToAuthorize` and
`ReqULToCheck` can write responses; `ReqToLimit` can replace the
per-request data-store handle but has no response writer;
`ReqFinalResult` can replace the result but has no response writer.
All five views expose `SetData`.
-/

/-- Effects available to an `Authenticator` through `ReqToAuthenticate`. -/
structure AuthOut where
  ok : Bool
  writesResp : List Resp := []
  login : Option Principal := none
  setData : Option Nat := none

/-- Callback type `Authenticator` (`func(req ReqToAuthenticate) bool`). -/
abbrev Authenticator := Req → AuthOut

/-- Effects available to an `Authorizor` through `ReqToAuthorize`. -/
structure AuthzOut where
  ok : Bool
  writesResp : List Resp := []
  setData : Option Nat := none

/-- Callback type `Authorizor` (`func(req ReqToAuthorize) bool`). -/
abbrev Authorizor := Req → AuthzOut

/-- Effects available to a `QueryLimiter` through `ReqToLimit`:
`SetDB` but no response writer. -/
structure QueryOut where
  ok : Bool
  setDb : Option DB := none
  setData : Option Nat := none

/-- Callback type `QueryLimiter` (`func(req ReqToLimit) bool`). -/
abbrev QueryLimiter := Req → QueryOut

/-- Effects available to an `UploadChecker` through `ReqULToCheck`. -/
structure CheckOut where
  ok : Bool
  writesResp : List Resp := []
  setData : Option Nat := none

/-- Callback type `UploadChecker` (`func(req ReqULToCheck) bool`). -/
abbrev UploadChecker := Req → CheckOut

/-- Effects available to a `ResultEditor` through `ReqFinalResult`:
`SetResult` but no response writer. -/
structure EditOut where
  ok : Bool
  setResult : Option (Option ResultVal) := none
  setData : Option Nat := none

/-- Callback type `ResultEditor` (`func(req ReqFinalResult) bool`). -/
abbrev ResultEditor := Req → EditOut

/-- Apply one `setData`-style optional effect. -/
def applyOpt {α : Type} (new : Option α) (old : α) : α :=
  match new with
  | some v => v
  | none => old

/-- Run an `Authenticator` against the request, applying the effects its
view permits. -/
def applyAuthenticate (f : Authenticator) (r : Req) : Bool × Req :=
  let out := f r
  (out.ok, { r with responses := r.responses ++ out.writesResp,
                    loginObject := applyOpt (out.login.map some) r.loginObject,
                    data := applyOpt (out.setData.map some) r.data })

/-- Run an `Authorizor` against the request. -/
def applyAuthorize (f : Authorizor) (r : Req) : Bool × Req :=
  let out := f r
  (out.ok, { r with responses := r.responses ++ out.writesResp,
                    data := applyOpt (out.setData.map some) r.data })

/-- Run a `QueryLimiter` against the request (it may call `SetDB`). -/
def applyQuery (f : QueryLimiter) (r : Req) : Bool × Req :=
  let out := f r
  (out.ok, { r with db := applyOpt out.setDb r.db,
                    data := applyOpt (out.setData.map some) r.data })

/-- Run an `UploadChecker` against the request. -/
def applyCheckUpload (f : UploadChecker) (r : Req) : Bool × Req :=
  let out := f r
  (out.ok, { r with responses := r.responses ++ out.writesResp,
                    data := applyOpt (out.setData.map some) r.data })

/-- Run a `ResultEditor` against the request (it may call `SetResult`). -/
def applyEditResult (f : ResultEditor) (r : Req) : Bool × Req :=
  let out := f r
  (out.ok, { r with result := applyOpt out.setResult r.result,
                    data := applyOpt (out.setData.map some) r.data })

/-!
## Route configuration
-/

/-- Go `RouteOptions` (`route_options.go`). -/
structure RouteOptions where
  prefixStr : String := ""
  uriModelName : String := ""
  useDefaultAuth : Bool := false
  authenticate : Option Authenticator := none
  authorize : Option Authorizor := none
  query : Option QueryLimiter := none
  checkUpload : Option UploadChecker := none
  editResult : Option ResultEditor := none
  initialised : Bool := false

/-!
## The pipeline engine

Each Go handler is the short-circuiting conjunction
`s1(&req) && s2(&req) && ...`; `runChain` evaluates exactly that over a
list of named stages, stopping at the first stage that returns `false`.
An optional stage whose callback is `nil` is an implicit success
(`o.X == nil || o.X(&req)`) and does not count as executed.
-/

/-- A named pipeline stage. -/
structure NamedStage where
  name : String
  run : Req → Bool × Req

/-- Evaluate a stage chain left to right, short-circuiting at the first
stage that reports failure, exactly like the Go `&&` chain. -/
def runChain : List NamedStage → Req → Bool × Req
  | [], r => (true, r)
  | s :: rest, r =>
      if (s.run r).1 then runChain rest (s.run r).2 else (false, (s.run r).2)

/-- An optional user-supplied stage: implicit success when not
configured, otherwise the callback runs (and is logged as executed). -/
def optStage (n : String) (cb : Option (Req → Bool × Req)) : NamedStage :=
  ⟨n, fun r =>
    match cb with
    | none => (true, r)
    | some f => f (logStage n r)⟩

/-- A built-in stage (always present, always logged by its own body). -/
def builtin (n : String) (f : Req → Bool × Req) : NamedStage := ⟨n, f⟩

/-- The stage list of `itemHandler` (GET item). -/
def itemChain (o : RouteOptions) : List NamedStage :=
  [ optStage "Authenticate" (o.authenticate.map applyAuthenticate),
    optStage "Authorize" (o.authorize.map applyAuthorize),
    optStage "Query" (o.query.map applyQuery),
    builtin "GetItemById" getItemById,
    optStage "EditResult" (o.editResult.map applyEditResult),
    builtin "SerialiseResult" serialiseResult ]

/-- The stage list of `indexHandler` (GET collection). -/
def indexChain (o : RouteOptions) : List NamedStage :=
  [ optStage "Authenticate" (o.authenticate.map applyAuthenticate),
    optStage "Authorize" (o.authorize.map applyAuthorize),
    optStage "Query" (o.query.map applyQuery),
    builtin "GetItems" getItems,
    optStage "EditResult" (o.editResult.map applyEditResult),
    builtin "SerialiseResult" serialiseResult ]

/-- The stage list of `postHandler` (POST). -/
def postChain (o : RouteOptions) : List NamedStage :=
  [ optStage "Authenticate" (o.authenticate.map applyAuthenticate),
    optStage "Authorize" (o.authorize.map applyAuthorize),
    builtin "ParseUpload" parseUpload,
    optStage "CheckUpload" (o.checkUpload.map applyCheckUpload),
    builtin "PostDB" postDB,
    optStage "EditResult" (o.editResult.map applyEditResult),
    builtin "SerialiseResult" serialiseResult ]

/-- The stage list of `patchHandler` (PATCH). -/
def patchChain (o : RouteOptions) : List NamedStage :=
  [ optStage "Authenticate" (o.authenticate.map applyAuthenticate),
    optStage "Authorize" (o.authorize.map applyAuthorize),
    optStage "Query" (o.query.map applyQuery),
    builtin "GetItemById" getItemById,
    builtin "PatchResultWithUploaded" patchResultWithUploaded,
    optStage "CheckUpload" (o.checkUpload.map applyCheckUpload),
    builtin "PatchDB" patchDB,
    optStage "EditResult" (o.editResult.map applyEditResult),
    builtin "SerialiseResult" serialiseResult ]

/-- The stage list of `deleteHandler` (DELETE). -/
def deleteChain (o : RouteOptions) : List NamedStage :=
  [ optStage "Authenticate" (o.authenticate.map applyAuthenticate),
    optStage "Authorize" (o.authorize.map applyAuthorize),
    optStage "Query" (o.query.map applyQuery),
    builtin "GetItemById" getItemById,
    builtin "DeleteFromDB" deleteFromDB,
    optStage "EditResult" (o.editResult.map applyEditResult),
    builtin "SerialiseResult" serialiseResult ]

/-- The `Grapi` instance: the unscoped data-store handle and the shared
options. -/
structure Grapi where
  db : DB
  options : Options

/-- The externally supplied parts of one inbound HTTP request: the `:id`
path parameter, the body, and the bearer-token parse outcome. -/
structure Input where
  idParam : Nat := 0
  body : Body := .malformed
  token : TokenParse := .absent

/-- The fresh per-request state each handler allocates:
`request{api: g, DB: g.db, method: m, Type: itemType, TableName: ...}`. -/
def mkRequest (g : Grapi) (method : String) (ty : Model) (inp : Input) : Req :=
  { idParam := inp.idParam, body := inp.body, token := inp.token,
    method := method, tableName := pluralCamelNameType ty, model := ty,
    db := g.db, apiDb := g.db, options := g.options }

/-- Handler `itemHandler` from `api.go`: the GET-item pipeline. -/
def Grapi.itemHandler (g : Grapi) (ty : Model) (o : RouteOptions) (inp : Input) : Bool × Req :=
  runChain (itemChain o) (mkRequest g "GET" ty inp)

/-- Handler `indexHandler` from `api.go`: the GET-collection pipeline. -/
def Grapi.indexHandler (g : Grapi) (ty : Model) (o : RouteOptions) (inp : Input) : Bool × Req :=
  runChain (indexChain o) (mkRequest g "GET" ty inp)

/-- Handler `postHandler` from `api.go`: the POST pipeline. -/
def Grapi.postHandler (g : Grapi) (ty : Model) (o : RouteOptions) (inp : Input) : Bool × Req :=
  runChain (postChain o) (mkRequest g "POST" ty inp)

/-- Handler `patchHandler` from `api.go`: the PATCH pipeline. -/
def Grapi.patchHandler (g : Grapi) (ty : Model) (o : RouteOptions) (inp : Input) : Bool × Req :=
  runChain (patchChain o) (mkRequest g "PATCH" ty inp)

/-- Handler `deleteHandler` from `api.go`: the DELETE pipeline. -/
def Grapi.deleteHandler (g : Grapi) (ty : Model) (o : RouteOptions) (inp : Input) : Bool × Req :=
  runChain (deleteChain o) (mkRequest g "DELETE" ty inp)

/-- The five verbs, for claims quantifying over every pipeline. -/
inductive Verb where
  | getItem | getIndex | post | patch | delete
deriving DecidableEq, Repr

/-- The stage list a verb's handler runs. -/
def verbChain (o : RouteOptions) : Verb → List NamedStage
  | .getItem => itemChain o
  | .getIndex => indexChain o
  | .post => postChain o
  | .patch => patchChain o
  | .delete => deleteChain o

/-- The `method` string each handler stores in the request. -/
def verbMethod : Verb → String
  | .getItem => "GET"
  | .getIndex => "GET"
  | .post => "POST"
  | .patch => "PATCH"
  | .delete => "DELETE"

/-- Run the handler of a verb (definitionally equal to the corresponding
`Grapi.*Handler`). -/
def runVerb (g : Grapi) (ty : Model) (o : RouteOptions) (inp : Input) (v : Verb) : Bool × Req :=
  runChain (verbChain o v) (mkRequest g (verbMethod v) ty inp)

/-!
## Default authenticator and route registration
-/

/-- Stage `defaultAuthenticator` from `auth.go`: parse and verify the bearer
token via the token codec; on a valid token resolve the embedded subject
through the `LoginModel` collaborator, bind the principal with
`SetLoginObject` and succeed; on any failure (missing, invalid, expired
or mis-signed token, or unresolvable subject) write a 401 response and
fail. -/
def Grapi.defaultAuthenticator (_g : Grapi) : Authenticator := fun r =>
  match r.token with
  | .valid subj =>
      match r.options.loginModel.getById subj with
      | none => { ok := false, writesResp := [⟨401, .text "Unauthorized"⟩] }
      | some u => { ok := true, login := some u }
  | _ => { ok := false, writesResp := [⟨401, .text "Unauthorized"⟩] }

/-- The panic message of `RouteOptions.Initialise`. -/
def bothAuthMsg : String :=
  "Should set either RouteOptions.Authenticate or RouteOptions.UseDefaultAuth, but not both. Your custom authenticator will now be overwritten."

/-- Finalizer `RouteOptions.Initialise` (`route_options.go`): idempotent finalize.
With the built-in-authenticator flag set, a custom `Authenticate`
callback is a fatal configuration error (`log.Panicf`, modelled as
`Except.error`); otherwise the default authenticator is installed. -/
def RouteOptions.Initialise (ro : RouteOptions) (g : Grapi) : Except String RouteOptions :=
  if ro.initialised then .ok ro
  else
    let ro := { ro with initialised := true }
    if !ro.useDefaultAuth then .ok ro
    else
      match ro.authenticate with
      | some _ => .error bothAuthMsg
      | none => .ok { ro with authenticate := some g.defaultAuthenticator }

/-- Helper `makePath` from `api.go`. -/
def Grapi.makePath (g : Grapi) (ty : Model) (ro : RouteOptions) : String :=
  let path := if ro.uriModelName.length == 0 then pluralCamelNameType ty else ro.uriModelName
  g.options.uriPrefixStr ++ ro.prefixStr ++ "/" ++ path

/-- A route registered with the router collaborator: its path and the
handler closure that will serve requests. -/
structure Route where
  path : String
  handler : Input → Bool × Req

/-- Registrar `AddGetRoute` from `api.go`: finalize the route options at
registration time (a fatal configuration error surfaces here, before any
handler exists), then register the GET-item handler.  A `nil` options
pointer means a fresh default `RouteOptions`. -/
def Grapi.AddGetRoute (g : Grapi) (ty : Model) (ro0 : Option RouteOptions) : Except String Route :=
  let ro := ro0.getD {}
  match ro.Initialise g with
  | .error e => .error e
  | .ok ro' => .ok { path := g.makePath ty ro' ++ "/:id",
                     handler := fun inp => g.itemHandler ty ro' inp }

/-- A per-stage invariant-preservation property. -/
def StagePres (P : Req → Prop) (s : NamedStage) : Prop :=
  ∀ r, P r → P (s.run r).2

/-- A stage that, when it runs, appends at most its own name to the
executed-stage log. -/
def LogsSelf (s : NamedStage) : Prop :=
  ∀ r, (s.run r).2.executed = r.executed ∨
       (s.run r).2.executed = r.executed ++ [s.name]

/-!
## Frame: request fields no stage ever writes
-/

/-- The request fields that no stage (built-in or callback) ever writes:
the inbound parameters, the route/typing data, the shared options and
the unscoped api handle. -/
def FrameEq (r0 r : Req) : Prop :=
  r.idParam = r0.idParam ∧ r.body = r0.body ∧ r.token = r0.token ∧
  r.method = r0.method ∧ r.tableName = r0.tableName ∧ r.model = r0.model ∧
  r.options = r0.options ∧ r.apiDb = r0.apiDb

/-!
## Sample data shared by the witnesses
-/

/-- A sample store with two records behind the unscoped handle. -/
def dbW : DB := { tag := 1, records := [⟨1, "Widget 1"⟩, ⟨2, "Widget 2"⟩] }

/-- A sample Grapi instance. -/
def gW : Grapi := { db := dbW, options := {} }

/-- A sample model type without the validation capability. -/
def tyW : Model := { tableName := "widgets" }

/-- A sample GET request for the record with id 1. -/
def inpW : Input := { idParam := 1, body := .json {}, token := .absent }

/-- A sample request for an id matching no record. -/
def inpMissing : Input := { idParam := 42, body := .json {}, token := .absent }

/-- Route options with no callback configured. -/
def oNone : RouteOptions := {}

/-- Route options with an Authorize callback that always fails with 403. -/
def oAuthzFail : RouteOptions :=
  { authorize := some (fun _ => { ok := false, writesResp := [⟨403, .text "forbidden"⟩] }) }

/-- A PATCH body that sets id 0 and a new name. -/
def inpPatchId : Input :=
  { idParam := 1, body := .json { id := some 0, name := some "EditedName" }, token := .absent }

/-- A model type with the validation capability that requires the name
field to be a fixed string, as in the repository's `VerifiedWidget`. -/
def tyVerified : Model :=
  { tableName := "verified_widgets",
    validate := some (fun it =>
      if it.name = "Hello World!!" then []
      else [("must_be_hello_world", "wrong value")]) }

/-- A POST input whose body fails validation. -/
def inpBadName : Input :=
  { idParam := 0, body := .json { name := some "NewWidget" }, token := .absent }

/-- A POST input with a malformed body. -/
def inpMalformed : Input := { idParam := 0, body := .malformed, token := .absent }

/-- A store whose Save collaborator reports an error. -/
def dbSaveErr : DB := { tag := 1, records := [⟨1, "Widget 1"⟩], saveError := true }

/-- A Grapi instance over the erroring store. -/
def gSaveErr : Grapi := { db := dbSaveErr, options := {} }

/-- A PATCH body renaming the record without touching the id. -/
def inpPatchName : Input :=
  { idParam := 1, body := .json { name := some "EditedName" }, token := .absent }

/-- A store whose Create collaborator reports an error. -/
def dbCreateErr : DB := { tag := 1, records := [⟨1, "Widget 1"⟩], createError := true }

/-- A Grapi instance over the create-erroring store. -/
def gCreateErr : Grapi := { db := dbCreateErr, options := {} }

/-- A well-formed POST body. -/
def inpPostName : Input :=
  { idParam := 0, body := .json { name := some "NewWidget" }, token := .absent }

/-- A narrowed handle seeing only record 2. -/
def dScoped : DB := { tag := 7, records := [⟨2, "Widget 2"⟩] }

/-- Route options whose Query stage always installs the narrowed
handle. -/
def oScoped : RouteOptions :=
  { query := some (fun _ => { ok := true, setDb := some dScoped }) }

/-- A Grapi instance with a login model resolving only subject 5. -/
def gAuth : Grapi :=
  { db := dbW,
    options := { jwtKey := "secret",
                 loginModel := ⟨fun n => if n == 5 then some 99 else none⟩ } }

/-- A request carrying a valid token for subject 5. -/
def rTok : Req := mkRequest gAuth "GET" tyW { idParam := 1, body := .json {}, token := .valid 5 }

/-- A request carrying an invalid token. -/
def rBadTok : Req :=
  mkRequest gAuth "GET" tyW { idParam := 1, body := .json {}, token := .invalid }

/-- Route options requesting the built-in authenticator while also
configuring a custom one. -/
def oBoth : RouteOptions :=
  { useDefaultAuth := true, authenticate := some (fun _ => { ok := true }) }

/-- Route options requesting only the built-in authenticator. -/
def oFlagOnly : RouteOptions := { useDefaultAuth := true }

/-!
## C9 — at most one response write per request
-/

/-- The stage contract of the spec for response-capable callbacks
(Authenticate, Authorize, CheckUpload): write exactly one response when
failing and none when succeeding.  Query and EditResult callbacks have no
response writer in their views, so no condition is needed for them. -/
def GoodCallbacks (o : RouteOptions) : Prop :=
  (∀ f, o.authenticate = some f → ∀ r,
    ((f r).ok = true → (f r).writesResp = []) ∧
    ((f r).ok = false → (f r).writesResp.length = 1)) ∧
  (∀ f, o.authorize = some f → ∀ r,
    ((f r).ok = true → (f r).writesResp = []) ∧
    ((f r).ok = false → (f r).writesResp.length = 1)) ∧
  (∀ f, o.checkUpload = some f → ∀ r,
    ((f r).ok = true → (f r).writesResp = []) ∧
    ((f r).ok = false → (f r).writesResp.length = 1))

/-- A stage that writes nothing on success and at most one response on
failure. -/
def StageRespLe (s : NamedStage) : Prop :=
  ∀ r, ((s.run r).1 = true → (s.run r).2.responses = r.responses) ∧
       ((s.run r).1 = false →
         (s.run r).2.responses = r.responses ∨
         ∃ x, (s.run r).2.responses = r.responses ++ [x])

/-- Route options whose EditResult callback always fails (it has no
response writer, so the halt is silent). -/
def oEditFail : RouteOptions := { editResult := some (fun _ => { ok := false }) }

/-- Route options whose EditResult callback clears the result
(`SetResult(nil)`), as the repository's `TestEmptyResult` does. -/
def oClear : RouteOptions :=
  { editResult := some (fun _ => { ok := true, setResult := some none }) }

/-- A store with no records at all. -/
def gEmpty : Grapi := { db := { tag := 3 }, options := {} }

/-!
## Theorems
-/
/-!
## Generic facts about the chain evaluator
-/

/-- Unfolding lemma: the empty chain succeeds without touching the
request. -/
theorem runChain_nil (r : Req) : runChain [] r = (true, r) := rfl

/-- Unfolding lemma: one step of the chain evaluator. -/
theorem runChain_cons (s : NamedStage) (rest : List NamedStage) (r : Req) :
    runChain (s :: rest) r
      = if (s.run r).1 then runChain rest (s.run r).2 else (false, (s.run r).2) := rfl

/-- Unfolding lemma: a built-in stage runs its function. -/
theorem builtin_run (n : String) (f : Req → Bool × Req) : (builtin n f).run = f := rfl

/-- Decomposing a chain run at an append point. -/
theorem runChain_append (a b : List NamedStage) (r : Req) :
    runChain (a ++ b) r =
      if (runChain a r).1 then runChain b (runChain a r).2 else runChain a r := by
  induction a generalizing r with
  | nil => simp [runChain]
  | cons s rest ih =>
      by_cases h : (s.run r).1
      · simp [runChain, h, ih]
      · simp [runChain, h]

/-- Decomposing a chain run at position `k`, given that the first `k`
stages all succeeded. -/
theorem runChain_split (chain : List NamedStage) (k : Nat) (r : Req)
    (h : (runChain (chain.take k) r).1 = true) :
    runChain chain r = runChain (chain.drop k) (runChain (chain.take k) r).2 := by
  conv_lhs => rw [← List.take_append_drop k chain]
  rw [runChain_append]
  simp [h]

/-- A chain of invariant-preserving stages preserves the invariant,
whether or not the run short-circuits. -/
theorem runChain_pres {P : Req → Prop} :
    ∀ {chain : List NamedStage}, (∀ s ∈ chain, StagePres P s) →
      ∀ {r : Req}, P r → P (runChain chain r).2 := by
  intro chain
  induction chain with
  | nil =>
      intro _ r hr
      simpa [runChain] using hr
  | cons s rest ih =>
      intro h r hr
      have hs := h s (by simp)
      have hrest : ∀ t ∈ rest, StagePres P t := fun t ht => h t (by simp [ht])
      by_cases hc : (s.run r).1
      · simpa [runChain, hc] using ih hrest (hs r hr)
      · simpa [runChain, hc] using hs r hr

/-- Every name logged by a run of a self-logging chain is either an
already-logged name or the name of one of the chain's stages. -/
theorem runChain_executed :
    ∀ (chain : List NamedStage), (∀ s ∈ chain, LogsSelf s) →
      ∀ (r : Req) (n : String), n ∈ (runChain chain r).2.executed →
        n ∈ r.executed ∨ n ∈ chain.map NamedStage.name := by
  intro chain
  induction chain with
  | nil =>
      intro _ r n hn
      left
      simpa [runChain] using hn
  | cons s rest ih =>
      intro h r n hn
      have hs := h s (by simp)
      have hrest : ∀ t ∈ rest, LogsSelf t := fun t ht => h t (by simp [ht])
      by_cases hc : (s.run r).1
      · simp only [runChain, hc, if_true] at hn
        rcases ih hrest (s.run r).2 n hn with h1 | h1
        · rcases hs r with he | he
          · rw [he] at h1
            exact Or.inl h1
          · rw [he] at h1
            rcases List.mem_append.mp h1 with h2 | h2
            · exact Or.inl h2
            · right
              simp only [List.mem_singleton] at h2
              simp [h2]
        · right
          simp [h1]
      · simp only [runChain, hc, if_false, Bool.false_eq_true] at hn
        rcases hs r with he | he
        · rw [he] at hn
          exact Or.inl hn
        · rw [he] at hn
          rcases List.mem_append.mp hn with h2 | h2
          · exact Or.inl h2
          · right
            simp only [List.mem_singleton] at h2
            simp [h2]

/-!
## Per-stage bookkeeping lemmas
-/

theorem optStage_name (n : String) (cb : Option (Req → Bool × Req)) :
    (optStage n cb).name = n := rfl

theorem builtin_name (n : String) (f : Req → Bool × Req) :
    (builtin n f).name = n := rfl

theorem applyAuthenticate_executed (f : Authenticator) (r : Req) :
    (applyAuthenticate f r).2.executed = r.executed := rfl

theorem applyAuthorize_executed (f : Authorizor) (r : Req) :
    (applyAuthorize f r).2.executed = r.executed := rfl

theorem applyQuery_executed (f : QueryLimiter) (r : Req) :
    (applyQuery f r).2.executed = r.executed := rfl

theorem applyCheckUpload_executed (f : UploadChecker) (r : Req) :
    (applyCheckUpload f r).2.executed = r.executed := rfl

theorem applyEditResult_executed (f : ResultEditor) (r : Req) :
    (applyEditResult f r).2.executed = r.executed := rfl

/-- An optional stage whose callback leaves the executed log alone is
self-logging. -/
theorem optStage_logsSelf (n : String) (cb : Option (Req → Bool × Req))
    (h : ∀ f, cb = some f → ∀ r, (f r).2.executed = r.executed) :
    LogsSelf (optStage n cb) := by
  intro r
  cases hc : cb with
  | none => exact Or.inl rfl
  | some f =>
      right
      have := h f hc (logStage n r)
      simp only [optStage, hc]
      rw [this]
      rfl

theorem validateUploaded_executed (r : Req) :
    (validateUploaded r).2.executed = r.executed := by
  simp only [validateUploaded]
  split
  · split <;> rfl
  · rfl

theorem getItemById_executed (r : Req) :
    (getItemById r).2.executed = r.executed ++ ["GetItemById"] := by
  simp only [getItemById]
  split <;> rfl

theorem getItems_executed (r : Req) :
    (getItems r).2.executed = r.executed ++ ["GetItems"] := rfl

theorem parseUpload_executed (r : Req) :
    (parseUpload r).2.executed = r.executed ++ ["ParseUpload"] := by
  simp only [parseUpload]
  split
  · rfl
  · rw [validateUploaded_executed]
    rfl

theorem patchResultWithUploaded_executed (r : Req) :
    (patchResultWithUploaded r).2.executed
      = r.executed ++ ["PatchResultWithUploaded"] := by
  simp only [patchResultWithUploaded]
  split
  · rfl
  · split
    · split
      · rfl
      · rw [validateUploaded_executed]
        rfl
    · rfl

theorem postDB_executed (r : Req) :
    (postDB r).2.executed = r.executed ++ ["PostDB"] := by
  simp only [postDB]
  split <;> rfl

theorem patchDB_executed (r : Req) :
    (patchDB r).2.executed = r.executed ++ ["PatchDB"] := rfl

theorem deleteFromDB_executed (r : Req) :
    (deleteFromDB r).2.executed = r.executed ++ ["DeleteFromDB"] := rfl

theorem serialiseResult_executed (r : Req) :
    (serialiseResult r).2.executed = r.executed ++ ["SerialiseResult"] := by
  simp only [serialiseResult]
  split
  · rfl
  · split <;> rfl

/-- Every stage of every verb chain is self-logging. -/
theorem chain_logsSelf (o : RouteOptions) (v : Verb) :
    ∀ s ∈ verbChain o v, LogsSelf s := by
  have hAuth : LogsSelf (optStage "Authenticate" (o.authenticate.map applyAuthenticate)) := by
    refine optStage_logsSelf _ _ ?_
    rintro f hf r
    obtain ⟨f0, _, rfl⟩ := Option.map_eq_some'.mp hf
    exact applyAuthenticate_executed f0 r
  have hAuthz : LogsSelf (optStage "Authorize" (o.authorize.map applyAuthorize)) := by
    refine optStage_logsSelf _ _ ?_
    rintro f hf r
    obtain ⟨f0, _, rfl⟩ := Option.map_eq_some'.mp hf
    exact applyAuthorize_executed f0 r
  have hQuery : LogsSelf (optStage "Query" (o.query.map applyQuery)) := by
    refine optStage_logsSelf _ _ ?_
    rintro f hf r
    obtain ⟨f0, _, rfl⟩ := Option.map_eq_some'.mp hf
    exact applyQuery_executed f0 r
  have hCheck : LogsSelf (optStage "CheckUpload" (o.checkUpload.map applyCheckUpload)) := by
    refine optStage_logsSelf _ _ ?_
    rintro f hf r
    obtain ⟨f0, _, rfl⟩ := Option.map_eq_some'.mp hf
    exact applyCheckUpload_executed f0 r
  have hEdit : LogsSelf (optStage "EditResult" (o.editResult.map applyEditResult)) := by
    refine optStage_logsSelf _ _ ?_
    rintro f hf r
    obtain ⟨f0, _, rfl⟩ := Option.map_eq_some'.mp hf
    exact applyEditResult_executed f0 r
  have hGet : LogsSelf (builtin "GetItemById" getItemById) :=
    fun r => Or.inr (getItemById_executed r)
  have hGets : LogsSelf (builtin "GetItems" getItems) :=
    fun r => Or.inr (getItems_executed r)
  have hParse : LogsSelf (builtin "ParseUpload" parseUpload) :=
    fun r => Or.inr (parseUpload_executed r)
  have hMerge : LogsSelf (builtin "PatchResultWithUploaded" patchResultWithUploaded) :=
    fun r => Or.inr (patchResultWithUploaded_executed r)
  have hPost : LogsSelf (builtin "PostDB" postDB) :=
    fun r => Or.inr (postDB_executed r)
  have hPatch : LogsSelf (builtin "PatchDB" patchDB) :=
    fun r => Or.inr (patchDB_executed r)
  have hDel : LogsSelf (builtin "DeleteFromDB" deleteFromDB) :=
    fun r => Or.inr (deleteFromDB_executed r)
  have hSer : LogsSelf (builtin "SerialiseResult" serialiseResult) :=
    fun r => Or.inr (serialiseResult_executed r)
  intro s hs
  cases v with
  | getItem =>
      simp only [verbChain, itemChain, List.mem_cons, List.not_mem_nil, or_false] at hs
      rcases hs with rfl | rfl | rfl | rfl | rfl | rfl
      exacts [hAuth, hAuthz, hQuery, hGet, hEdit, hSer]
  | getIndex =>
      simp only [verbChain, indexChain, List.mem_cons, List.not_mem_nil, or_false] at hs
      rcases hs with rfl | rfl | rfl | rfl | rfl | rfl
      exacts [hAuth, hAuthz, hQuery, hGets, hEdit, hSer]
  | post =>
      simp only [verbChain, postChain, List.mem_cons, List.not_mem_nil, or_false] at hs
      rcases hs with rfl | rfl | rfl | rfl | rfl | rfl | rfl
      exacts [hAuth, hAuthz, hParse, hCheck, hPost, hEdit, hSer]
  | patch =>
      simp only [verbChain, patchChain, List.mem_cons, List.not_mem_nil, or_false] at hs
      rcases hs with rfl | rfl | rfl | rfl | rfl | rfl | rfl | rfl | rfl
      exacts [hAuth, hAuthz, hQuery, hGet, hMerge, hCheck, hPatch, hEdit, hSer]
  | delete =>
      simp only [verbChain, deleteChain, List.mem_cons, List.not_mem_nil, or_false] at hs
      rcases hs with rfl | rfl | rfl | rfl | rfl | rfl | rfl
      exacts [hAuth, hAuthz, hQuery, hGet, hDel, hEdit, hSer]

/-- The stage names of each verb chain, independent of the configured
callbacks. -/
theorem verbChain_names (o : RouteOptions) (v : Verb) :
    (verbChain o v).map NamedStage.name =
      (match v with
       | .getItem => ["Authenticate", "Authorize", "Query", "GetItemById",
                      "EditResult", "SerialiseResult"]
       | .getIndex => ["Authenticate", "Authorize", "Query", "GetItems",
                       "EditResult", "SerialiseResult"]
       | .post => ["Authenticate", "Authorize", "ParseUpload", "CheckUpload",
                   "PostDB", "EditResult", "SerialiseResult"]
       | .patch => ["Authenticate", "Authorize", "Query", "GetItemById",
                    "PatchResultWithUploaded", "CheckUpload", "PatchDB",
                    "EditResult", "SerialiseResult"]
       | .delete => ["Authenticate", "Authorize", "Query", "GetItemById",
                     "DeleteFromDB", "EditResult", "SerialiseResult"]) := by
  cases v <;> rfl

/-- The stage names of each verb chain are pairwise distinct. -/
theorem verbChain_names_nodup (o : RouteOptions) (v : Verb) :
    ((verbChain o v).map NamedStage.name).Nodup := by
  rw [verbChain_names]
  cases v <;> decide

/-!
## C1 — a failing stage halts the chain
-/

/-- Helper: if the stage at position `k` of a verb chain reports failure
on the state it receives, the whole run returns at once with exactly the
state the failing stage produced, and the name of no later stage appears
in the executed-stage log. -/
theorem haltAtStage
    (g : Grapi) (ty : Model) (o : RouteOptions) (inp : Input) (v : Verb)
    (k : Nat) (hk : k < (verbChain o v).length)
    (hpre : (runChain ((verbChain o v).take k)
        (mkRequest g (verbMethod v) ty inp)).1 = true)
    (hfail : (((verbChain o v).get ⟨k, hk⟩).run
        (runChain ((verbChain o v).take k)
          (mkRequest g (verbMethod v) ty inp)).2).1 = false) :
    runVerb g ty o inp v =
      ((verbChain o v).get ⟨k, hk⟩).run
        (runChain ((verbChain o v).take k) (mkRequest g (verbMethod v) ty inp)).2 ∧
    ∀ j (hj : j < (verbChain o v).length), k < j →
      ((verbChain o v).get ⟨j, hj⟩).name ∉ (runVerb g ty o inp v).2.executed := by
  have hdrop : (verbChain o v).drop k
      = (verbChain o v).get ⟨k, hk⟩ :: (verbChain o v).drop (k + 1) := by
    rw [List.get_eq_getElem]
    exact List.drop_eq_getElem_cons hk
  have hstop : runVerb g ty o inp v
      = ((verbChain o v).get ⟨k, hk⟩).run
          (runChain ((verbChain o v).take k) (mkRequest g (verbMethod v) ty inp)).2 := by
    have hsplit := runChain_split (verbChain o v) k (mkRequest g (verbMethod v) ty inp) hpre
    rw [runVerb, hsplit, hdrop]
    have hfail2 := hfail
    simp only [List.get_eq_getElem] at hfail2
    simp [runChain, hfail2, Prod.ext_iff]
  refine ⟨hstop, ?_⟩
  intro j hj hkj hmem
  rw [hstop] at hmem
  have hpreexec : ∀ n ∈ (runChain ((verbChain o v).take k)
      (mkRequest g (verbMethod v) ty inp)).2.executed,
      ∃ i, ∃ hi : i < (verbChain o v).length, i < k ∧
        ((verbChain o v).get ⟨i, hi⟩).name = n := by
    intro n hn
    rcases runChain_executed ((verbChain o v).take k)
        (fun t ht => chain_logsSelf o v t (List.take_subset k (verbChain o v) ht))
        (mkRequest g (verbMethod v) ty inp) n hn with h | h
    · simp [mkRequest] at h
    · rw [List.map_take] at h
      rcases List.mem_take_iff_getElem.mp h with ⟨i, hm, hi⟩
      have hlen : i < ((verbChain o v).map NamedStage.name).length :=
        lt_of_lt_of_le hm (min_le_right _ _)
      have hlen2 : i < (verbChain o v).length := by simpa using hlen
      refine ⟨i, hlen2, lt_of_lt_of_le hm (min_le_left _ _), ?_⟩
      rw [List.get_eq_getElem, ← hi]
      simp [List.getElem_map]
  have hselflog := chain_logsSelf o v ((verbChain o v).get ⟨k, hk⟩)
    (List.get_mem (verbChain o v) k hk)
  have hcase : ∃ i, ∃ hi : i < (verbChain o v).length, i ≤ k ∧
      ((verbChain o v).get ⟨i, hi⟩).name = ((verbChain o v).get ⟨j, hj⟩).name := by
    rcases hselflog
        (runChain ((verbChain o v).take k) (mkRequest g (verbMethod v) ty inp)).2
      with he | he
    · rw [he] at hmem
      rcases hpreexec _ hmem with ⟨i, hi, hik, hname⟩
      exact ⟨i, hi, le_of_lt hik, hname⟩
    · rw [he] at hmem
      rcases List.mem_append.mp hmem with h2 | h2
      · rcases hpreexec _ h2 with ⟨i, hi, hik, hname⟩
        exact ⟨i, hi, le_of_lt hik, hname⟩
      · simp only [List.mem_singleton] at h2
        exact ⟨k, hk, le_refl k, h2.symm⟩
  rcases hcase with ⟨i, hi, hik, hname⟩
  have hnd := verbChain_names_nodup o v
  have hieqj : i = j := by
    have hgi : ((verbChain o v).map NamedStage.name).get ⟨i, by simpa using hi⟩
        = ((verbChain o v).map NamedStage.name).get ⟨j, by simpa using hj⟩ := by
      simp only [List.get_eq_getElem] at hname ⊢
      simpa [List.getElem_map] using hname
    have := (List.Nodup.get_inj_iff hnd).mp hgi
    exact congrArg Fin.val this
  omega

/-- Helper: every name in the executed log of a prefix run comes from the
names of that prefix. -/
theorem prefix_executed_mem (o : RouteOptions) (v : Verb) (g : Grapi) (ty : Model)
    (inp : Input) (k : Nat) :
    ∀ n ∈ (runChain ((verbChain o v).take k)
        (mkRequest g (verbMethod v) ty inp)).2.executed,
      n ∈ ((verbChain o v).map NamedStage.name).take k := by
  intro n hn
  rcases runChain_executed ((verbChain o v).take k)
      (fun t ht => chain_logsSelf o v t (List.take_subset k (verbChain o v) ht))
      (mkRequest g (verbMethod v) ty inp) n hn with h | h
  · simp [mkRequest] at h
  · rwa [List.map_take] at h

/-- C1: For every HTTP verb's pipeline, if any configured optional stage
(Authenticate, Authorize, Query, CheckUpload, EditResult) returns false,
no subsequent stage in that verb's chain executes.  Stated for the stage
at any position `k` of the chain (which covers every configured optional
stage as well as the built-ins): if that stage reports failure on the
state it receives, the whole run returns at once with exactly the state
the failing stage produced, and the name of no later stage — optional or
built-in (fetch, create, update, delete, serialize) — appears in the
executed-stage log. -/
theorem optionalStageFalseHalts
    (g : Grapi) (ty : Model) (o : RouteOptions) (inp : Input) (v : Verb)
    (k : Nat) (hk : k < (verbChain o v).length)
    (hpre : (runChain ((verbChain o v).take k)
        (mkRequest g (verbMethod v) ty inp)).1 = true)
    (hfail : (((verbChain o v).get ⟨k, hk⟩).run
        (runChain ((verbChain o v).take k)
          (mkRequest g (verbMethod v) ty inp)).2).1 = false) :
    runVerb g ty o inp v =
      ((verbChain o v).get ⟨k, hk⟩).run
        (runChain ((verbChain o v).take k) (mkRequest g (verbMethod v) ty inp)).2 ∧
    ∀ j (hj : j < (verbChain o v).length), k < j →
      ((verbChain o v).get ⟨j, hj⟩).name ∉ (runVerb g ty o inp v).2.executed :=
  haltAtStage g ty o inp v k hk hpre hfail

theorem frameEq_refl (r0 : Req) : FrameEq r0 r0 := by
  simp [FrameEq]

theorem applyAuthenticate_frame (r0 : Req) (f : Authenticator) (r : Req)
    (h : FrameEq r0 r) : FrameEq r0 (applyAuthenticate f r).2 := by
  simpa [FrameEq, applyAuthenticate] using h

theorem applyAuthorize_frame (r0 : Req) (f : Authorizor) (r : Req)
    (h : FrameEq r0 r) : FrameEq r0 (applyAuthorize f r).2 := by
  simpa [FrameEq, applyAuthorize] using h

theorem applyQuery_frame (r0 : Req) (f : QueryLimiter) (r : Req)
    (h : FrameEq r0 r) : FrameEq r0 (applyQuery f r).2 := by
  simpa [FrameEq, applyQuery] using h

theorem applyCheckUpload_frame (r0 : Req) (f : UploadChecker) (r : Req)
    (h : FrameEq r0 r) : FrameEq r0 (applyCheckUpload f r).2 := by
  simpa [FrameEq, applyCheckUpload] using h

theorem applyEditResult_frame (r0 : Req) (f : ResultEditor) (r : Req)
    (h : FrameEq r0 r) : FrameEq r0 (applyEditResult f r).2 := by
  simpa [FrameEq, applyEditResult] using h

theorem optStage_frame (r0 : Req) (n : String) (cb : Option (Req → Bool × Req))
    (hcb : ∀ f, cb = some f → ∀ r, FrameEq r0 r → FrameEq r0 (f r).2) :
    StagePres (FrameEq r0) (optStage n cb) := by
  intro r h
  cases hc : cb with
  | none => simpa [optStage, hc] using h
  | some f =>
      simp only [optStage, hc]
      exact hcb f hc (logStage n r) (by simpa [FrameEq, logStage] using h)

theorem validateUploaded_frame (r0 : Req) (r : Req) (h : FrameEq r0 r) :
    FrameEq r0 (validateUploaded r).2 := by
  simp only [validateUploaded]
  split
  · split
    · simpa [FrameEq, respond] using h
    · simpa using h
  · simpa using h

theorem getItemById_frame (r0 : Req) (r : Req) (h : FrameEq r0 r) :
    FrameEq r0 (getItemById r).2 := by
  simp only [getItemById]
  split <;> simpa [FrameEq, respond, logStage] using h

theorem getItems_frame (r0 : Req) (r : Req) (h : FrameEq r0 r) :
    FrameEq r0 (getItems r).2 := by
  simpa [FrameEq, getItems, logStage] using h

theorem parseUpload_frame (r0 : Req) (r : Req) (h : FrameEq r0 r) :
    FrameEq r0 (parseUpload r).2 := by
  simp only [parseUpload]
  split
  · simpa [FrameEq, respond, logStage] using h
  · exact validateUploaded_frame r0 _ (by simpa [FrameEq, logStage] using h)

theorem patchResultWithUploaded_frame (r0 : Req) (r : Req) (h : FrameEq r0 r) :
    FrameEq r0 (patchResultWithUploaded r).2 := by
  simp only [patchResultWithUploaded]
  split
  · simpa [FrameEq, respond, logStage] using h
  · split
    · split
      · simpa [FrameEq, respond, logStage] using h
      · exact validateUploaded_frame r0 _ (by simpa [FrameEq, logStage] using h)
    · simpa [FrameEq, respond, logStage] using h

theorem postDB_frame (r0 : Req) (r : Req) (h : FrameEq r0 r) :
    FrameEq r0 (postDB r).2 := by
  simp only [postDB]
  split <;> simpa [FrameEq, respond, logStage] using h

theorem patchDB_frame (r0 : Req) (r : Req) (h : FrameEq r0 r) :
    FrameEq r0 (patchDB r).2 := by
  simpa [FrameEq, patchDB, logStage] using h

theorem deleteFromDB_frame (r0 : Req) (r : Req) (h : FrameEq r0 r) :
    FrameEq r0 (deleteFromDB r).2 := by
  simpa [FrameEq, deleteFromDB, logStage] using h

theorem serialiseResult_frame (r0 : Req) (r : Req) (h : FrameEq r0 r) :
    FrameEq r0 (serialiseResult r).2 := by
  simp only [serialiseResult]
  split
  · simpa [FrameEq, respond, logStage] using h
  · split <;> simpa [FrameEq, respond, logStage] using h

/-- Every stage of every verb chain preserves the frame fields. -/
theorem chain_frame (o : RouteOptions) (v : Verb) (r0 : Req) :
    ∀ s ∈ verbChain o v, StagePres (FrameEq r0) s := by
  have hAuth : StagePres (FrameEq r0)
      (optStage "Authenticate" (o.authenticate.map applyAuthenticate)) := by
    refine optStage_frame r0 _ _ ?_
    rintro f hf r h
    obtain ⟨f0, _, rfl⟩ := Option.map_eq_some'.mp hf
    exact applyAuthenticate_frame r0 f0 r h
  have hAuthz : StagePres (FrameEq r0)
      (optStage "Authorize" (o.authorize.map applyAuthorize)) := by
    refine optStage_frame r0 _ _ ?_
    rintro f hf r h
    obtain ⟨f0, _, rfl⟩ := Option.map_eq_some'.mp hf
    exact applyAuthorize_frame r0 f0 r h
  have hQuery : StagePres (FrameEq r0)
      (optStage "Query" (o.query.map applyQuery)) := by
    refine optStage_frame r0 _ _ ?_
    rintro f hf r h
    obtain ⟨f0, _, rfl⟩ := Option.map_eq_some'.mp hf
    exact applyQuery_frame r0 f0 r h
  have hCheck : StagePres (FrameEq r0)
      (optStage "CheckUpload" (o.checkUpload.map applyCheckUpload)) := by
    refine optStage_frame r0 _ _ ?_
    rintro f hf r h
    obtain ⟨f0, _, rfl⟩ := Option.map_eq_some'.mp hf
    exact applyCheckUpload_frame r0 f0 r h
  have hEdit : StagePres (FrameEq r0)
      (optStage "EditResult" (o.editResult.map applyEditResult)) := by
    refine optStage_frame r0 _ _ ?_
    rintro f hf r h
    obtain ⟨f0, _, rfl⟩ := Option.map_eq_some'.mp hf
    exact applyEditResult_frame r0 f0 r h
  intro s hs
  cases v with
  | getItem =>
      simp only [verbChain, itemChain, List.mem_cons, List.not_mem_nil, or_false] at hs
      rcases hs with rfl | rfl | rfl | rfl | rfl | rfl
      exacts [hAuth, hAuthz, hQuery, fun r => getItemById_frame r0 r,
        hEdit, fun r => serialiseResult_frame r0 r]
  | getIndex =>
      simp only [verbChain, indexChain, List.mem_cons, List.not_mem_nil, or_false] at hs
      rcases hs with rfl | rfl | rfl | rfl | rfl | rfl
      exacts [hAuth, hAuthz, hQuery, fun r => getItems_frame r0 r,
        hEdit, fun r => serialiseResult_frame r0 r]
  | post =>
      simp only [verbChain, postChain, List.mem_cons, List.not_mem_nil, or_false] at hs
      rcases hs with rfl | rfl | rfl | rfl | rfl | rfl | rfl
      exacts [hAuth, hAuthz, fun r => parseUpload_frame r0 r, hCheck,
        fun r => postDB_frame r0 r, hEdit, fun r => serialiseResult_frame r0 r]
  | patch =>
      simp only [verbChain, patchChain, List.mem_cons, List.not_mem_nil, or_false] at hs
      rcases hs with rfl | rfl | rfl | rfl | rfl | rfl | rfl | rfl | rfl
      exacts [hAuth, hAuthz, hQuery, fun r => getItemById_frame r0 r,
        fun r => patchResultWithUploaded_frame r0 r, hCheck,
        fun r => patchDB_frame r0 r, hEdit, fun r => serialiseResult_frame r0 r]
  | delete =>
      simp only [verbChain, deleteChain, List.mem_cons, List.not_mem_nil, or_false] at hs
      rcases hs with rfl | rfl | rfl | rfl | rfl | rfl | rfl
      exacts [hAuth, hAuthz, hQuery, fun r => getItemById_frame r0 r,
        fun r => deleteFromDB_frame r0 r, hEdit, fun r => serialiseResult_frame r0 r]

/-- The frame of a prefix run of a verb chain is the initial request. -/
theorem prefix_frame (o : RouteOptions) (v : Verb) (g : Grapi) (ty : Model)
    (inp : Input) (k : Nat) :
    FrameEq (mkRequest g (verbMethod v) ty inp)
      (runChain ((verbChain o v).take k) (mkRequest g (verbMethod v) ty inp)).2 :=
  runChain_pres
    (fun t ht => chain_frame o v (mkRequest g (verbMethod v) ty inp) t
      (List.take_subset k (verbChain o v) ht))
    (frameEq_refl (mkRequest g (verbMethod v) ty inp))

/-- Witness for C1: with a configured Authorize callback that fails, the
GET-item pipeline returns at the Authorize stage (position 1) and no
later stage's name is logged as executed. -/
theorem optionalStageFalseHalts_witness :
    runVerb gW tyW oAuthzFail inpW .getItem =
      ((verbChain oAuthzFail .getItem).get ⟨1, by decide⟩).run
        (runChain ((verbChain oAuthzFail .getItem).take 1)
          (mkRequest gW (verbMethod .getItem) tyW inpW)).2 ∧
    ∀ j (hj : j < (verbChain oAuthzFail .getItem).length), 1 < j →
      ((verbChain oAuthzFail .getItem).get ⟨j, hj⟩).name
        ∉ (runVerb gW tyW oAuthzFail inpW .getItem).2.executed :=
  optionalStageFalseHalts gW tyW oAuthzFail inpW .getItem 1 (by decide) rfl rfl

/-!
## C4 — GET item on a missing identity
-/

/-- C4: for every GET-item request whose identity parameter matches no
record (through the handle in force after the optional
Authenticate/Authorize/Query stages, the first three stages of the
chain), the fetch-by-id stage writes a 404 response and halts, and
neither the EditResult stage nor the serialize stage is ever invoked. -/
theorem getItemNotFound404
    (g : Grapi) (ty : Model) (o : RouteOptions) (inp : Input)
    (hpre : (runChain ((itemChain o).take 3) (mkRequest g "GET" ty inp)).1 = true)
    (hlook : (runChain ((itemChain o).take 3) (mkRequest g "GET" ty inp)).2.db.findById
        inp.idParam = none) :
    (g.itemHandler ty o inp).1 = false ∧
    (g.itemHandler ty o inp).2.responses
      = (runChain ((itemChain o).take 3) (mkRequest g "GET" ty inp)).2.responses
        ++ [⟨404, .text "Not Found"⟩] ∧
    "EditResult" ∉ (g.itemHandler ty o inp).2.executed ∧
    "SerialiseResult" ∉ (g.itemHandler ty o inp).2.executed := by
  have hframe : FrameEq (mkRequest g "GET" ty inp)
      (runChain ((itemChain o).take 3) (mkRequest g "GET" ty inp)).2 :=
    prefix_frame o .getItem g ty inp 3
  have hlook2 : (runChain ((itemChain o).take 3) (mkRequest g "GET" ty inp)).2.db.findById
      (runChain ((itemChain o).take 3) (mkRequest g "GET" ty inp)).2.idParam = none := by
    rw [hframe.1]
    exact hlook
  have hfst : (getItemById
      (runChain ((itemChain o).take 3) (mkRequest g "GET" ty inp)).2).1 = false := by
    simp [getItemById, logStage, hlook2]
  have hresp : (getItemById
      (runChain ((itemChain o).take 3) (mkRequest g "GET" ty inp)).2).2.responses
      = (runChain ((itemChain o).take 3) (mkRequest g "GET" ty inp)).2.responses
        ++ [⟨404, .text "Not Found"⟩] := by
    simp [getItemById, logStage, respond, hlook2]
  have hrun : g.itemHandler ty o inp
      = (false, (getItemById
          (runChain ((itemChain o).take 3) (mkRequest g "GET" ty inp)).2).2) := by
    have hsplit := runChain_split (itemChain o) 3 (mkRequest g "GET" ty inp) hpre
    rw [Grapi.itemHandler, hsplit]
    rw [show (itemChain o).drop 3 = [builtin "GetItemById" getItemById,
         optStage "EditResult" (o.editResult.map applyEditResult),
         builtin "SerialiseResult" serialiseResult] from rfl]
    rw [runChain_cons, builtin_run, hfst]
    simp
  have hexec : (g.itemHandler ty o inp).2.executed
      = (runChain ((itemChain o).take 3) (mkRequest g "GET" ty inp)).2.executed
        ++ ["GetItemById"] := by
    rw [hrun]
    exact getItemById_executed _
  have hmem3 : ∀ n ∈ (runChain ((itemChain o).take 3)
      (mkRequest g "GET" ty inp)).2.executed,
      n ∈ ["Authenticate", "Authorize", "Query"] := by
    intro n hn
    have h := prefix_executed_mem o .getItem g ty inp 3 n hn
    simpa [verbChain_names] using h
  refine ⟨by rw [hrun], by rw [hrun]; exact hresp, ?_, ?_⟩
  · intro hmem
    rw [hexec] at hmem
    rcases List.mem_append.mp hmem with h | h
    · have := hmem3 _ h
      simp at this
    · simp at h
  · intro hmem
    rw [hexec] at hmem
    rcases List.mem_append.mp hmem with h | h
    · have := hmem3 _ h
      simp at this
    · simp at h

/-- Witness for C4: a GET for id 42 against the sample store (which has
only ids 1 and 2) with no callbacks configured yields 404 and never runs
EditResult or the serializer. -/
theorem getItemNotFound404_witness :
    (gW.itemHandler tyW oNone inpMissing).1 = false ∧
    (gW.itemHandler tyW oNone inpMissing).2.responses
      = (runChain ((itemChain oNone).take 3) (mkRequest gW "GET" tyW inpMissing)).2.responses
        ++ [⟨404, .text "Not Found"⟩] ∧
    "EditResult" ∉ (gW.itemHandler tyW oNone inpMissing).2.executed ∧
    "SerialiseResult" ∉ (gW.itemHandler tyW oNone inpMissing).2.executed :=
  getItemNotFound404 gW tyW oNone inpMissing rfl rfl

/-!
## Store-write bookkeeping of the read-only stages
-/

theorem applyAuthenticate_writes (f : Authenticator) (r : Req) :
    (applyAuthenticate f r).2.writes = r.writes := rfl

theorem applyAuthorize_writes (f : Authorizor) (r : Req) :
    (applyAuthorize f r).2.writes = r.writes := rfl

theorem applyQuery_writes (f : QueryLimiter) (r : Req) :
    (applyQuery f r).2.writes = r.writes := rfl

theorem applyCheckUpload_writes (f : UploadChecker) (r : Req) :
    (applyCheckUpload f r).2.writes = r.writes := rfl

theorem applyEditResult_writes (f : ResultEditor) (r : Req) :
    (applyEditResult f r).2.writes = r.writes := rfl

theorem validateUploaded_writes (r : Req) :
    (validateUploaded r).2.writes = r.writes := by
  simp only [validateUploaded]
  split
  · split <;> rfl
  · rfl

theorem getItemById_writes (r : Req) : (getItemById r).2.writes = r.writes := by
  simp only [getItemById]
  split <;> rfl

theorem getItems_writes (r : Req) : (getItems r).2.writes = r.writes := rfl

theorem parseUpload_writes (r : Req) : (parseUpload r).2.writes = r.writes := by
  simp only [parseUpload]
  split
  · rfl
  · rw [validateUploaded_writes]
    rfl

theorem patchResultWithUploaded_writes (r : Req) :
    (patchResultWithUploaded r).2.writes = r.writes := by
  simp only [patchResultWithUploaded]
  split
  · rfl
  · split
    · split
      · rfl
      · rw [validateUploaded_writes]
        rfl
    · rfl

theorem serialiseResult_writes (r : Req) :
    (serialiseResult r).2.writes = r.writes := by
  simp only [serialiseResult]
  split
  · rfl
  · split <;> rfl

/-- An optional stage whose callback leaves the write log alone keeps an
empty write log empty. -/
theorem optStage_writesPres (n : String) (cb : Option (Req → Bool × Req))
    (hcb : ∀ f, cb = some f → ∀ r, (f r).2.writes = r.writes) :
    StagePres (fun r => r.writes = []) (optStage n cb) := by
  intro r h
  cases hc : cb with
  | none => simpa [optStage, hc] using h
  | some f =>
      simp only [optStage, hc]
      rw [hcb f hc]
      simpa [logStage] using h

theorem optAuth_writesPres (o : RouteOptions) :
    StagePres (fun r => r.writes = [])
      (optStage "Authenticate" (o.authenticate.map applyAuthenticate)) := by
  refine optStage_writesPres _ _ ?_
  rintro f hf r
  obtain ⟨f0, _, rfl⟩ := Option.map_eq_some'.mp hf
  exact applyAuthenticate_writes f0 r

theorem optAuthz_writesPres (o : RouteOptions) :
    StagePres (fun r => r.writes = [])
      (optStage "Authorize" (o.authorize.map applyAuthorize)) := by
  refine optStage_writesPres _ _ ?_
  rintro f hf r
  obtain ⟨f0, _, rfl⟩ := Option.map_eq_some'.mp hf
  exact applyAuthorize_writes f0 r

theorem optQuery_writesPres (o : RouteOptions) :
    StagePres (fun r => r.writes = [])
      (optStage "Query" (o.query.map applyQuery)) := by
  refine optStage_writesPres _ _ ?_
  rintro f hf r
  obtain ⟨f0, _, rfl⟩ := Option.map_eq_some'.mp hf
  exact applyQuery_writes f0 r

/-- The first four stages of the PATCH chain never touch the store. -/
theorem patch_prefix4_writes (o : RouteOptions) (g : Grapi) (ty : Model) (inp : Input) :
    (runChain ((patchChain o).take 4) (mkRequest g "PATCH" ty inp)).2.writes = [] := by
  have h : ∀ s ∈ (patchChain o).take 4, StagePres (fun r => r.writes = []) s := by
    intro s hs
    rw [show (patchChain o).take 4
        = [optStage "Authenticate" (o.authenticate.map applyAuthenticate),
           optStage "Authorize" (o.authorize.map applyAuthorize),
           optStage "Query" (o.query.map applyQuery),
           builtin "GetItemById" getItemById] from rfl] at hs
    simp only [List.mem_cons, List.not_mem_nil, or_false] at hs
    rcases hs with rfl | rfl | rfl | rfl
    · exact optAuth_writesPres o
    · exact optAuthz_writesPres o
    · exact optQuery_writesPres o
    · intro r h
      show ((builtin "GetItemById" getItemById).run r).2.writes = []
      rw [builtin_run, getItemById_writes]
      exact h
  exact runChain_pres h rfl

/-!
## C2 — PATCH may not change the identity field
-/

/-- C2: for every PATCH request whose body parses as JSON but changes
the identity field of the fetched result (the id after the merge differs
from the id recorded before it), the pipeline halts with a 422 response,
no store write ever happens, and the update stage PatchDB is never
reached — whatever the other field changes in the body. -/
theorem patchIdChange422
    (g : Grapi) (ty : Model) (o : RouteOptions) (inp : Input) (p : Patch) (it : Item)
    (hbody : inp.body = .json p)
    (hpre : (runChain ((patchChain o).take 4) (mkRequest g "PATCH" ty inp)).1 = true)
    (hres : (runChain ((patchChain o).take 4) (mkRequest g "PATCH" ty inp)).2.result
        = some (.item it))
    (hid : (applyPatch p it).id ≠ it.id) :
    (g.patchHandler ty o inp).1 = false ∧
    (g.patchHandler ty o inp).2.responses
      = (runChain ((patchChain o).take 4) (mkRequest g "PATCH" ty inp)).2.responses
        ++ [⟨422, .empty⟩] ∧
    (g.patchHandler ty o inp).2.writes = [] ∧
    "PatchDB" ∉ (g.patchHandler ty o inp).2.executed := by
  have hframe : FrameEq (mkRequest g "PATCH" ty inp)
      (runChain ((patchChain o).take 4) (mkRequest g "PATCH" ty inp)).2 :=
    prefix_frame o .patch g ty inp 4
  have hb : (runChain ((patchChain o).take 4) (mkRequest g "PATCH" ty inp)).2.body
      = .json p := by
    rw [hframe.2.1]
    exact hbody
  have hid2 : it.id ≠ (applyPatch p it).id := Ne.symm hid
  have hfst : (patchResultWithUploaded
      (runChain ((patchChain o).take 4) (mkRequest g "PATCH" ty inp)).2).1 = false := by
    simp [patchResultWithUploaded, logStage, hb, hres, hid2]
  have hresp : (patchResultWithUploaded
      (runChain ((patchChain o).take 4) (mkRequest g "PATCH" ty inp)).2).2.responses
      = (runChain ((patchChain o).take 4) (mkRequest g "PATCH" ty inp)).2.responses
        ++ [⟨422, .empty⟩] := by
    simp [patchResultWithUploaded, logStage, respond, hb, hres, hid2]
  have hrun : g.patchHandler ty o inp
      = (false, (patchResultWithUploaded
          (runChain ((patchChain o).take 4) (mkRequest g "PATCH" ty inp)).2).2) := by
    have hsplit := runChain_split (patchChain o) 4 (mkRequest g "PATCH" ty inp) hpre
    rw [Grapi.patchHandler, hsplit]
    rw [show (patchChain o).drop 4
        = [builtin "PatchResultWithUploaded" patchResultWithUploaded,
           optStage "CheckUpload" (o.checkUpload.map applyCheckUpload),
           builtin "PatchDB" patchDB,
           optStage "EditResult" (o.editResult.map applyEditResult),
           builtin "SerialiseResult" serialiseResult] from rfl]
    rw [runChain_cons, builtin_run, hfst]
    simp
  have hexec : (g.patchHandler ty o inp).2.executed
      = (runChain ((patchChain o).take 4) (mkRequest g "PATCH" ty inp)).2.executed
        ++ ["PatchResultWithUploaded"] := by
    rw [hrun]
    exact patchResultWithUploaded_executed _
  have hmem4 : ∀ n ∈ (runChain ((patchChain o).take 4)
      (mkRequest g "PATCH" ty inp)).2.executed,
      n ∈ ["Authenticate", "Authorize", "Query", "GetItemById"] := by
    intro n hn
    have h := prefix_executed_mem o .patch g ty inp 4 n hn
    simpa [verbChain_names] using h
  refine ⟨by rw [hrun], by rw [hrun]; exact hresp, ?_, ?_⟩
  · rw [hrun, patchResultWithUploaded_writes]
    exact patch_prefix4_writes o g ty inp
  · intro hmem
    rw [hexec] at hmem
    rcases List.mem_append.mp hmem with h | h
    · have := hmem4 _ h
      simp at this
    · simp at h

/-- Witness for C2: PATCH of record 1 with body changing the id to 0
halts with 422, writes nothing to the store and never reaches PatchDB. -/
theorem patchIdChange422_witness :
    (gW.patchHandler tyW oNone inpPatchId).1 = false ∧
    (gW.patchHandler tyW oNone inpPatchId).2.responses
      = (runChain ((patchChain oNone).take 4) (mkRequest gW "PATCH" tyW inpPatchId)).2.responses
        ++ [⟨422, .empty⟩] ∧
    (gW.patchHandler tyW oNone inpPatchId).2.writes = [] ∧
    "PatchDB" ∉ (gW.patchHandler tyW oNone inpPatchId).2.executed :=
  patchIdChange422 gW tyW oNone inpPatchId { id := some 0, name := some "EditedName" }
    ⟨1, "Widget 1"⟩ rfl rfl rfl (by decide)

/-!
## C6 — POST parse and validation failures
-/

/-- The first two stages of the POST chain never touch the store. -/
theorem post_prefix2_writes (o : RouteOptions) (g : Grapi) (ty : Model) (inp : Input) :
    (runChain ((postChain o).take 2) (mkRequest g "POST" ty inp)).2.writes = [] := by
  have h : ∀ s ∈ (postChain o).take 2, StagePres (fun r => r.writes = []) s := by
    intro s hs
    rw [show (postChain o).take 2
        = [optStage "Authenticate" (o.authenticate.map applyAuthenticate),
           optStage "Authorize" (o.authorize.map applyAuthorize)] from rfl] at hs
    simp only [List.mem_cons, List.not_mem_nil, or_false] at hs
    rcases hs with rfl | rfl
    · exact optAuth_writesPres o
    · exact optAuthz_writesPres o
  exact runChain_pres h rfl

/-- C6: for every POST request, a body that is not well-formed JSON makes
the parse-upload stage write a bare 422 and halt before any persistence
attempt; a body that parses, on a model with the validation capability
whose validation returns a non-empty error map, makes the stage write a
422 carrying the structured error map as body and halt before any
persistence attempt.  In both cases the store write log stays empty and
the create stage PostDB never executes. -/
theorem postParse422
    (g : Grapi) (ty : Model) (o : RouteOptions) (inp : Input)
    (hpre : (runChain ((postChain o).take 2) (mkRequest g "POST" ty inp)).1 = true) :
    (inp.body = .malformed →
      (g.postHandler ty o inp).1 = false ∧
      (g.postHandler ty o inp).2.responses
        = (runChain ((postChain o).take 2) (mkRequest g "POST" ty inp)).2.responses
          ++ [⟨422, .empty⟩] ∧
      (g.postHandler ty o inp).2.writes = [] ∧
      "PostDB" ∉ (g.postHandler ty o inp).2.executed) ∧
    (∀ p vf, inp.body = .json p → ty.validate = some vf →
      vf (applyPatch p itemZero) ≠ [] →
      (g.postHandler ty o inp).1 = false ∧
      (g.postHandler ty o inp).2.responses
        = (runChain ((postChain o).take 2) (mkRequest g "POST" ty inp)).2.responses
          ++ [⟨422, .errors (vf (applyPatch p itemZero))⟩] ∧
      (g.postHandler ty o inp).2.writes = [] ∧
      "PostDB" ∉ (g.postHandler ty o inp).2.executed) := by
  have hframe : FrameEq (mkRequest g "POST" ty inp)
      (runChain ((postChain o).take 2) (mkRequest g "POST" ty inp)).2 :=
    prefix_frame o .post g ty inp 2
  have hmain : (parseUpload
        (runChain ((postChain o).take 2) (mkRequest g "POST" ty inp)).2).1 = false →
      g.postHandler ty o inp
        = (false, (parseUpload
            (runChain ((postChain o).take 2) (mkRequest g "POST" ty inp)).2).2) := by
    intro hfst
    have hsplit := runChain_split (postChain o) 2 (mkRequest g "POST" ty inp) hpre
    rw [Grapi.postHandler, hsplit]
    rw [show (postChain o).drop 2
        = [builtin "ParseUpload" parseUpload,
           optStage "CheckUpload" (o.checkUpload.map applyCheckUpload),
           builtin "PostDB" postDB,
           optStage "EditResult" (o.editResult.map applyEditResult),
           builtin "SerialiseResult" serialiseResult] from rfl]
    rw [runChain_cons, builtin_run, hfst]
    simp
  have hnopost : ∀ hrun : g.postHandler ty o inp
      = (false, (parseUpload
          (runChain ((postChain o).take 2) (mkRequest g "POST" ty inp)).2).2),
      "PostDB" ∉ (g.postHandler ty o inp).2.executed := by
    intro hrun hmem
    rw [hrun, parseUpload_executed] at hmem
    rcases List.mem_append.mp hmem with h | h
    · have h2 := prefix_executed_mem o .post g ty inp 2 _ h
      simp [verbChain_names] at h2
    · simp at h
  constructor
  · intro hbody
    have hb : (runChain ((postChain o).take 2) (mkRequest g "POST" ty inp)).2.body
        = .malformed := by
      rw [hframe.2.1]
      exact hbody
    have hfst : (parseUpload
        (runChain ((postChain o).take 2) (mkRequest g "POST" ty inp)).2).1 = false := by
      simp [parseUpload, logStage, hb]
    have hrun := hmain hfst
    refine ⟨by rw [hrun], ?_, ?_, hnopost hrun⟩
    · rw [hrun]
      simp [parseUpload, logStage, respond, hb]
    · rw [hrun, parseUpload_writes]
      exact post_prefix2_writes o g ty inp
  · intro p vf hbody hval herr
    have hb : (runChain ((postChain o).take 2) (mkRequest g "POST" ty inp)).2.body
        = .json p := by
      rw [hframe.2.1]
      exact hbody
    have hmod : (runChain ((postChain o).take 2)
        (mkRequest g "POST" ty inp)).2.model.validate = some vf := by
      rw [hframe.2.2.2.2.2.1]
      exact hval
    have hfst : (parseUpload
        (runChain ((postChain o).take 2) (mkRequest g "POST" ty inp)).2).1 = false := by
      simp [parseUpload, validateUploaded, logStage, hb, hmod, herr]
    have hrun := hmain hfst
    refine ⟨by rw [hrun], ?_, ?_, hnopost hrun⟩
    · rw [hrun]
      simp [parseUpload, validateUploaded, logStage, respond, hb, hmod, herr]
    · rw [hrun, parseUpload_writes]
      exact post_prefix2_writes o g ty inp

/-- Witness for C6, instantiating both conjuncts: the malformed branch at
a malformed input and the validation branch at a failing upload. -/
theorem postParse422_witness :
    ((gW.postHandler tyW oNone inpMalformed).1 = false ∧
      (gW.postHandler tyW oNone inpMalformed).2.responses
        = (runChain ((postChain oNone).take 2) (mkRequest gW "POST" tyW inpMalformed)).2.responses
          ++ [⟨422, .empty⟩] ∧
      (gW.postHandler tyW oNone inpMalformed).2.writes = [] ∧
      "PostDB" ∉ (gW.postHandler tyW oNone inpMalformed).2.executed) ∧
    ((gW.postHandler tyVerified oNone inpBadName).1 = false ∧
      (gW.postHandler tyVerified oNone inpBadName).2.responses
        = (runChain ((postChain oNone).take 2) (mkRequest gW "POST" tyVerified inpBadName)).2.responses
          ++ [⟨422, .errors [("must_be_hello_world", "wrong value")]⟩] ∧
      (gW.postHandler tyVerified oNone inpBadName).2.writes = [] ∧
      "PostDB" ∉ (gW.postHandler tyVerified oNone inpBadName).2.executed) :=
  ⟨(postParse422 gW tyW oNone inpMalformed rfl).1 rfl,
   (postParse422 gW tyVerified oNone inpBadName rfl).2
     { name := some "NewWidget" }
     (fun it => if it.name = "Hello World!!" then []
       else [("must_be_hello_world", "wrong value")])
     rfl rfl (by decide)⟩

/-!
## C5 — persistence failures: 422 on create, ignored on update
-/

/-- C5 (amended): whenever the data store reports an error during the
create stage (POST), the pipeline halts and a 422 response is written;
during the update stage (PATCH) the store error is discarded — PatchDB
always succeeds, writes no response, and the pipeline continues. -/
theorem storeError422
    (g : Grapi) (ty : Model) (o : RouteOptions) (inp : Input)
    (hpre : (runChain ((postChain o).take 4) (mkRequest g "POST" ty inp)).1 = true)
    (hcreate : g.db.createError = true) :
    ((g.postHandler ty o inp).1 = false ∧
     (g.postHandler ty o inp).2.responses
       = (runChain ((postChain o).take 4) (mkRequest g "POST" ty inp)).2.responses
         ++ [⟨422, .empty⟩] ∧
     "EditResult" ∉ (g.postHandler ty o inp).2.executed ∧
     "SerialiseResult" ∉ (g.postHandler ty o inp).2.executed) ∧
    (∀ r : Req, (patchDB r).1 = true ∧ (patchDB r).2.responses = r.responses) := by
  have hframe : FrameEq (mkRequest g "POST" ty inp)
      (runChain ((postChain o).take 4) (mkRequest g "POST" ty inp)).2 :=
    prefix_frame o .post g ty inp 4
  have hapi : (runChain ((postChain o).take 4) (mkRequest g "POST" ty inp)).2.apiDb
      = g.db := hframe.2.2.2.2.2.2.2
  have hce : (runChain ((postChain o).take 4)
      (mkRequest g "POST" ty inp)).2.apiDb.createError = true := by
    rw [hapi]
    exact hcreate
  have hfst : (postDB
      (runChain ((postChain o).take 4) (mkRequest g "POST" ty inp)).2).1 = false := by
    simp [postDB, logStage, hce]
  have hrun : g.postHandler ty o inp
      = (false, (postDB
          (runChain ((postChain o).take 4) (mkRequest g "POST" ty inp)).2).2) := by
    have hsplit := runChain_split (postChain o) 4 (mkRequest g "POST" ty inp) hpre
    rw [Grapi.postHandler, hsplit]
    rw [show (postChain o).drop 4
        = [builtin "PostDB" postDB,
           optStage "EditResult" (o.editResult.map applyEditResult),
           builtin "SerialiseResult" serialiseResult] from rfl]
    rw [runChain_cons, builtin_run, hfst]
    simp
  have hexec : (g.postHandler ty o inp).2.executed
      = (runChain ((postChain o).take 4) (mkRequest g "POST" ty inp)).2.executed
        ++ ["PostDB"] := by
    rw [hrun]
    exact postDB_executed _
  have hmem4 : ∀ n ∈ (runChain ((postChain o).take 4)
      (mkRequest g "POST" ty inp)).2.executed,
      n ∈ ["Authenticate", "Authorize", "ParseUpload", "CheckUpload"] := by
    intro n hn
    have h := prefix_executed_mem o .post g ty inp 4 n hn
    simpa [verbChain_names] using h
  refine ⟨⟨by rw [hrun], ?_, ?_, ?_⟩, ?_⟩
  · rw [hrun]
    simp [postDB, logStage, respond, hce]
  · intro hmem
    rw [hexec] at hmem
    rcases List.mem_append.mp hmem with h | h
    · have := hmem4 _ h
      simp at this
    · simp at h
  · intro hmem
    rw [hexec] at hmem
    rcases List.mem_append.mp hmem with h | h
    · have := hmem4 _ h
      simp at this
    · simp at h
  · intro r
    exact ⟨rfl, rfl⟩

/-- Counterexample to C5 as stated: the data store reports an error
during the update stage (`saveError = true`), yet the PATCH pipeline does
not halt with 422 — it succeeds and writes a single 200 response,
because PatchDB discards the error returned by `Save`. -/
theorem storeError422_counterexample :
    dbSaveErr.saveError = true ∧
    (gSaveErr.patchHandler tyW oNone inpPatchName).1 = true ∧
    (gSaveErr.patchHandler tyW oNone inpPatchName).2.responses
      = [⟨200, .jsonResult (.item ⟨1, "EditedName"⟩)⟩] :=
  ⟨rfl, rfl, rfl⟩

/-- Witness for C5 (amended) at a concrete erroring store. -/
theorem storeError422_witness :
    ((gCreateErr.postHandler tyW oNone inpPostName).1 = false ∧
     (gCreateErr.postHandler tyW oNone inpPostName).2.responses
       = (runChain ((postChain oNone).take 4) (mkRequest gCreateErr "POST" tyW inpPostName)).2.responses
         ++ [⟨422, .empty⟩] ∧
     "EditResult" ∉ (gCreateErr.postHandler tyW oNone inpPostName).2.executed ∧
     "SerialiseResult" ∉ (gCreateErr.postHandler tyW oNone inpPostName).2.executed) ∧
    (∀ r : Req, (patchDB r).1 = true ∧ (patchDB r).2.responses = r.responses) :=
  storeError422 gCreateErr tyW oNone inpPostName rfl rfl

/-!
## Per-stage handle and read-log bookkeeping
-/

theorem applyAuthenticate_db (f : Authenticator) (r : Req) :
    (applyAuthenticate f r).2.db = r.db := rfl

theorem applyAuthorize_db (f : Authorizor) (r : Req) :
    (applyAuthorize f r).2.db = r.db := rfl

theorem applyCheckUpload_db (f : UploadChecker) (r : Req) :
    (applyCheckUpload f r).2.db = r.db := rfl

theorem applyEditResult_db (f : ResultEditor) (r : Req) :
    (applyEditResult f r).2.db = r.db := rfl

theorem applyAuthenticate_reads (f : Authenticator) (r : Req) :
    (applyAuthenticate f r).2.reads = r.reads := rfl

theorem applyAuthorize_reads (f : Authorizor) (r : Req) :
    (applyAuthorize f r).2.reads = r.reads := rfl

theorem applyQuery_reads (f : QueryLimiter) (r : Req) :
    (applyQuery f r).2.reads = r.reads := rfl

theorem applyCheckUpload_reads (f : UploadChecker) (r : Req) :
    (applyCheckUpload f r).2.reads = r.reads := rfl

theorem applyEditResult_reads (f : ResultEditor) (r : Req) :
    (applyEditResult f r).2.reads = r.reads := rfl

theorem validateUploaded_db (r : Req) : (validateUploaded r).2.db = r.db := by
  simp only [validateUploaded]
  split
  · split <;> rfl
  · rfl

theorem validateUploaded_reads (r : Req) : (validateUploaded r).2.reads = r.reads := by
  simp only [validateUploaded]
  split
  · split <;> rfl
  · rfl

theorem getItemById_db (r : Req) : (getItemById r).2.db = r.db := by
  simp only [getItemById]
  split <;> rfl

theorem getItemById_reads (r : Req) :
    (getItemById r).2.reads = r.reads ++ [r.db] := by
  simp only [getItemById]
  split <;> rfl

theorem getItems_db (r : Req) : (getItems r).2.db = r.db := rfl

theorem getItems_reads (r : Req) : (getItems r).2.reads = r.reads ++ [r.db] := rfl

theorem parseUpload_db (r : Req) : (parseUpload r).2.db = r.db := by
  simp only [parseUpload]
  split
  · rfl
  · rw [validateUploaded_db]
    rfl

theorem parseUpload_reads (r : Req) : (parseUpload r).2.reads = r.reads := by
  simp only [parseUpload]
  split
  · rfl
  · rw [validateUploaded_reads]
    rfl

theorem patchResultWithUploaded_db (r : Req) :
    (patchResultWithUploaded r).2.db = r.db := by
  simp only [patchResultWithUploaded]
  split
  · rfl
  · split
    · split
      · rfl
      · rw [validateUploaded_db]
        rfl
    · rfl

theorem patchResultWithUploaded_reads (r : Req) :
    (patchResultWithUploaded r).2.reads = r.reads := by
  simp only [patchResultWithUploaded]
  split
  · rfl
  · split
    · split
      · rfl
      · rw [validateUploaded_reads]
        rfl
    · rfl

theorem postDB_db (r : Req) : (postDB r).2.db = r.db := by
  simp only [postDB]
  split <;> rfl

theorem postDB_reads (r : Req) : (postDB r).2.reads = r.reads := by
  simp only [postDB]
  split <;> rfl

theorem patchDB_db (r : Req) : (patchDB r).2.db = r.db := rfl

theorem patchDB_reads (r : Req) : (patchDB r).2.reads = r.reads := rfl

theorem deleteFromDB_db (r : Req) : (deleteFromDB r).2.db = r.db := rfl

theorem deleteFromDB_reads (r : Req) : (deleteFromDB r).2.reads = r.reads := rfl

theorem serialiseResult_db (r : Req) : (serialiseResult r).2.db = r.db := by
  simp only [serialiseResult]
  split
  · rfl
  · split <;> rfl

theorem serialiseResult_reads (r : Req) : (serialiseResult r).2.reads = r.reads := by
  simp only [serialiseResult]
  split
  · rfl
  · split <;> rfl

theorem postDB_writes (r : Req) :
    (postDB r).2.writes
      = r.writes ++ [{ db := r.apiDb, op := .create r.uploaded }] := by
  simp only [postDB]
  split <;> rfl

theorem patchDB_writes (r : Req) :
    (patchDB r).2.writes
      = r.writes ++ [{ db := r.apiDb, op := .save r.uploaded }] := rfl

theorem deleteFromDB_writes (r : Req) :
    (deleteFromDB r).2.writes
      = r.writes ++ [{ db := r.apiDb, op := .del r.result }] := rfl

theorem validateUploaded_apiDb (r : Req) : (validateUploaded r).2.apiDb = r.apiDb := by
  simp only [validateUploaded]
  split
  · split <;> rfl
  · rfl

theorem getItemById_apiDb (r : Req) : (getItemById r).2.apiDb = r.apiDb := by
  simp only [getItemById]
  split <;> rfl

theorem getItems_apiDb (r : Req) : (getItems r).2.apiDb = r.apiDb := rfl

theorem parseUpload_apiDb (r : Req) : (parseUpload r).2.apiDb = r.apiDb := by
  simp only [parseUpload]
  split
  · rfl
  · rw [validateUploaded_apiDb]
    rfl

theorem patchResultWithUploaded_apiDb (r : Req) :
    (patchResultWithUploaded r).2.apiDb = r.apiDb := by
  simp only [patchResultWithUploaded]
  split
  · rfl
  · split
    · split
      · rfl
      · rw [validateUploaded_apiDb]
        rfl
    · rfl

theorem postDB_apiDb (r : Req) : (postDB r).2.apiDb = r.apiDb := by
  simp only [postDB]
  split <;> rfl

theorem patchDB_apiDb (r : Req) : (patchDB r).2.apiDb = r.apiDb := rfl

theorem deleteFromDB_apiDb (r : Req) : (deleteFromDB r).2.apiDb = r.apiDb := rfl

theorem serialiseResult_apiDb (r : Req) : (serialiseResult r).2.apiDb = r.apiDb := by
  simp only [serialiseResult]
  split
  · rfl
  · split <;> rfl

/-- A generic invariant-preservation rule for optional stages. -/
theorem optStage_pres {P : Req → Prop} (n : String) (cb : Option (Req → Bool × Req))
    (hlog : ∀ r, P r → P (logStage n r))
    (hcb : ∀ f, cb = some f → ∀ r, P r → P (f r).2) :
    StagePres P (optStage n cb) := by
  intro r h
  cases hc : cb with
  | none => simpa [optStage, hc] using h
  | some f =>
      simp only [optStage, hc]
      exact hcb f hc (logStage n r) (hlog r h)

/-!
## C3 — writes use the unscoped handle, reads the scoped one
-/

/-- Every stage of every verb chain keeps the invariant that the unscoped
handle is `d` and every logged store write went through `d`. -/
theorem chain_writesTag (o : RouteOptions) (v : Verb) (d : DB) :
    ∀ s ∈ verbChain o v,
      StagePres (fun r => r.apiDb = d ∧ ∀ ev ∈ r.writes, ev.db = d) s := by
  have hwrite : ∀ r : Req, r.apiDb = d → (∀ ev ∈ r.writes, ev.db = d) →
      ∀ ev ∈ r.writes ++ [({ db := r.apiDb, op := StoreOp.create r.uploaded } : StoreEv)],
        ev.db = d := by
    intro r h1 h2 ev hev
    rcases List.mem_append.mp hev with h | h
    · exact h2 ev h
    · simp only [List.mem_singleton] at h
      rw [h, h1]
  intro s hs
  have hopt : ∀ (n : String) (cb : Option (Req → Bool × Req)),
      (∀ f, cb = some f → ∀ r, (f r).2.apiDb = r.apiDb ∧ (f r).2.writes = r.writes) →
      StagePres (fun r => r.apiDb = d ∧ ∀ ev ∈ r.writes, ev.db = d) (optStage n cb) := by
    intro n cb hcb
    refine optStage_pres _ _ (fun r h => h) ?_
    rintro f hf r h
    have h2 := hcb f hf r
    constructor
    · rw [h2.1]
      exact h.1
    · rw [h2.2]
      exact h.2
  have hA : ∀ f : Authenticator, ∀ r,
      (applyAuthenticate f r).2.apiDb = r.apiDb ∧
      (applyAuthenticate f r).2.writes = r.writes := fun f r => ⟨rfl, rfl⟩
  have hZ : ∀ f : Authorizor, ∀ r,
      (applyAuthorize f r).2.apiDb = r.apiDb ∧
      (applyAuthorize f r).2.writes = r.writes := fun f r => ⟨rfl, rfl⟩
  have hQ : ∀ f : QueryLimiter, ∀ r,
      (applyQuery f r).2.apiDb = r.apiDb ∧
      (applyQuery f r).2.writes = r.writes := fun f r => ⟨rfl, rfl⟩
  have hC : ∀ f : UploadChecker, ∀ r,
      (applyCheckUpload f r).2.apiDb = r.apiDb ∧
      (applyCheckUpload f r).2.writes = r.writes := fun f r => ⟨rfl, rfl⟩
  have hE : ∀ f : ResultEditor, ∀ r,
      (applyEditResult f r).2.apiDb = r.apiDb ∧
      (applyEditResult f r).2.writes = r.writes := fun f r => ⟨rfl, rfl⟩
  have hAuth := hopt "Authenticate" (o.authenticate.map applyAuthenticate)
    (by rintro f hf r; obtain ⟨f0, _, rfl⟩ := Option.map_eq_some'.mp hf; exact hA f0 r)
  have hAuthz := hopt "Authorize" (o.authorize.map applyAuthorize)
    (by rintro f hf r; obtain ⟨f0, _, rfl⟩ := Option.map_eq_some'.mp hf; exact hZ f0 r)
  have hQuery := hopt "Query" (o.query.map applyQuery)
    (by rintro f hf r; obtain ⟨f0, _, rfl⟩ := Option.map_eq_some'.mp hf; exact hQ f0 r)
  have hCheck := hopt "CheckUpload" (o.checkUpload.map applyCheckUpload)
    (by rintro f hf r; obtain ⟨f0, _, rfl⟩ := Option.map_eq_some'.mp hf; exact hC f0 r)
  have hEdit := hopt "EditResult" (o.editResult.map applyEditResult)
    (by rintro f hf r; obtain ⟨f0, _, rfl⟩ := Option.map_eq_some'.mp hf; exact hE f0 r)
  have hGet : StagePres (fun r => r.apiDb = d ∧ ∀ ev ∈ r.writes, ev.db = d)
      (builtin "GetItemById" getItemById) := by
    intro r h
    refine ⟨?_, ?_⟩
    · show (getItemById r).2.apiDb = d
      rw [getItemById_apiDb]
      exact h.1
    · show ∀ ev ∈ (getItemById r).2.writes, ev.db = d
      rw [getItemById_writes]
      exact h.2
  have hGets : StagePres (fun r => r.apiDb = d ∧ ∀ ev ∈ r.writes, ev.db = d)
      (builtin "GetItems" getItems) := by
    intro r h
    refine ⟨?_, ?_⟩
    · show (getItems r).2.apiDb = d
      rw [getItems_apiDb]
      exact h.1
    · show ∀ ev ∈ (getItems r).2.writes, ev.db = d
      rw [getItems_writes]
      exact h.2
  have hParse : StagePres (fun r => r.apiDb = d ∧ ∀ ev ∈ r.writes, ev.db = d)
      (builtin "ParseUpload" parseUpload) := by
    intro r h
    refine ⟨?_, ?_⟩
    · show (parseUpload r).2.apiDb = d
      rw [parseUpload_apiDb]
      exact h.1
    · show ∀ ev ∈ (parseUpload r).2.writes, ev.db = d
      rw [parseUpload_writes]
      exact h.2
  have hMerge : StagePres (fun r => r.apiDb = d ∧ ∀ ev ∈ r.writes, ev.db = d)
      (builtin "PatchResultWithUploaded" patchResultWithUploaded) := by
    intro r h
    refine ⟨?_, ?_⟩
    · show (patchResultWithUploaded r).2.apiDb = d
      rw [patchResultWithUploaded_apiDb]
      exact h.1
    · show ∀ ev ∈ (patchResultWithUploaded r).2.writes, ev.db = d
      rw [patchResultWithUploaded_writes]
      exact h.2
  have hSer : StagePres (fun r => r.apiDb = d ∧ ∀ ev ∈ r.writes, ev.db = d)
      (builtin "SerialiseResult" serialiseResult) := by
    intro r h
    refine ⟨?_, ?_⟩
    · show (serialiseResult r).2.apiDb = d
      rw [serialiseResult_apiDb]
      exact h.1
    · show ∀ ev ∈ (serialiseResult r).2.writes, ev.db = d
      rw [serialiseResult_writes]
      exact h.2
  have hPost : StagePres (fun r => r.apiDb = d ∧ ∀ ev ∈ r.writes, ev.db = d)
      (builtin "PostDB" postDB) := by
    intro r h
    refine ⟨?_, ?_⟩
    · show (postDB r).2.apiDb = d
      rw [postDB_apiDb]
      exact h.1
    · show ∀ ev ∈ (postDB r).2.writes, ev.db = d
      rw [postDB_writes]
      exact hwrite r h.1 h.2
  have hPatch : StagePres (fun r => r.apiDb = d ∧ ∀ ev ∈ r.writes, ev.db = d)
      (builtin "PatchDB" patchDB) := by
    intro r h
    refine ⟨?_, ?_⟩
    · show (patchDB r).2.apiDb = d
      rw [patchDB_apiDb]
      exact h.1
    · show ∀ ev ∈ (patchDB r).2.writes, ev.db = d
      rw [patchDB_writes]
      intro ev hev
      rcases List.mem_append.mp hev with hm | hm
      · exact h.2 ev hm
      · simp only [List.mem_singleton] at hm
        rw [hm, h.1]
  have hDel : StagePres (fun r => r.apiDb = d ∧ ∀ ev ∈ r.writes, ev.db = d)
      (builtin "DeleteFromDB" deleteFromDB) := by
    intro r h
    refine ⟨?_, ?_⟩
    · show (deleteFromDB r).2.apiDb = d
      rw [deleteFromDB_apiDb]
      exact h.1
    · show ∀ ev ∈ (deleteFromDB r).2.writes, ev.db = d
      rw [deleteFromDB_writes]
      intro ev hev
      rcases List.mem_append.mp hev with hm | hm
      · exact h.2 ev hm
      · simp only [List.mem_singleton] at hm
        rw [hm, h.1]
  cases v with
  | getItem =>
      simp only [verbChain, itemChain, List.mem_cons, List.not_mem_nil, or_false] at hs
      rcases hs with rfl | rfl | rfl | rfl | rfl | rfl
      exacts [hAuth, hAuthz, hQuery, hGet, hEdit, hSer]
  | getIndex =>
      simp only [verbChain, indexChain, List.mem_cons, List.not_mem_nil, or_false] at hs
      rcases hs with rfl | rfl | rfl | rfl | rfl | rfl
      exacts [hAuth, hAuthz, hQuery, hGets, hEdit, hSer]
  | post =>
      simp only [verbChain, postChain, List.mem_cons, List.not_mem_nil, or_false] at hs
      rcases hs with rfl | rfl | rfl | rfl | rfl | rfl | rfl
      exacts [hAuth, hAuthz, hParse, hCheck, hPost, hEdit, hSer]
  | patch =>
      simp only [verbChain, patchChain, List.mem_cons, List.not_mem_nil, or_false] at hs
      rcases hs with rfl | rfl | rfl | rfl | rfl | rfl | rfl | rfl | rfl
      exacts [hAuth, hAuthz, hQuery, hGet, hMerge, hCheck, hPatch, hEdit, hSer]
  | delete =>
      simp only [verbChain, deleteChain, List.mem_cons, List.not_mem_nil, or_false] at hs
      rcases hs with rfl | rfl | rfl | rfl | rfl | rfl | rfl
      exacts [hAuth, hAuthz, hQuery, hGet, hDel, hEdit, hSer]

/-- After the Authenticate/Authorize/Query prefix, when the configured
Query callback always succeeds and installs the handle `dNew` via
`SetDB`: every logged read used `dNew` (there are none yet), and if the
prefix succeeded the per-request handle is now `dNew`. -/
theorem queryPrefixFacts (o : RouteOptions) (q : QueryLimiter) (dNew : DB)
    (hq : o.query = some q)
    (hconst : ∀ r, q r = { ok := true, setDb := some dNew })
    (r0 : Req) (h0 : r0.reads = []) :
    (runChain [optStage "Authenticate" (o.authenticate.map applyAuthenticate),
               optStage "Authorize" (o.authorize.map applyAuthorize),
               optStage "Query" (o.query.map applyQuery)] r0).2.reads = [] ∧
    ((runChain [optStage "Authenticate" (o.authenticate.map applyAuthenticate),
                optStage "Authorize" (o.authorize.map applyAuthorize),
                optStage "Query" (o.query.map applyQuery)] r0).1 = true →
      (runChain [optStage "Authenticate" (o.authenticate.map applyAuthenticate),
                 optStage "Authorize" (o.authorize.map applyAuthorize),
                 optStage "Query" (o.query.map applyQuery)] r0).2.db = dNew) := by
  have h2 : ∀ s ∈ [optStage "Authenticate" (o.authenticate.map applyAuthenticate),
      optStage "Authorize" (o.authorize.map applyAuthorize)],
      StagePres (fun r => r.reads = []) s := by
    intro s hs
    simp only [List.mem_cons, List.not_mem_nil, or_false] at hs
    rcases hs with rfl | rfl
    · refine optStage_pres _ _ (fun r h => h) ?_
      rintro f hf r h
      obtain ⟨f0, _, rfl⟩ := Option.map_eq_some'.mp hf
      show (applyAuthenticate f0 r).2.reads = []
      rw [applyAuthenticate_reads]
      exact h
    · refine optStage_pres _ _ (fun r h => h) ?_
      rintro f hf r h
      obtain ⟨f0, _, rfl⟩ := Option.map_eq_some'.mp hf
      show (applyAuthorize f0 r).2.reads = []
      rw [applyAuthorize_reads]
      exact h
  have hpre2 : (runChain [optStage "Authenticate" (o.authenticate.map applyAuthenticate),
      optStage "Authorize" (o.authorize.map applyAuthorize)] r0).2.reads = [] :=
    runChain_pres h2 h0
  have happ := runChain_append
    [optStage "Authenticate" (o.authenticate.map applyAuthenticate),
     optStage "Authorize" (o.authorize.map applyAuthorize)]
    [optStage "Query" (o.query.map applyQuery)] r0
  rw [show ([optStage "Authenticate" (o.authenticate.map applyAuthenticate),
      optStage "Authorize" (o.authorize.map applyAuthorize)] ++
      [optStage "Query" (o.query.map applyQuery)])
      = [optStage "Authenticate" (o.authenticate.map applyAuthenticate),
         optStage "Authorize" (o.authorize.map applyAuthorize),
         optStage "Query" (o.query.map applyQuery)] from rfl] at happ
  rw [happ]
  by_cases hc : (runChain [optStage "Authenticate" (o.authenticate.map applyAuthenticate),
      optStage "Authorize" (o.authorize.map applyAuthorize)] r0).1 = true
  · simp only [hc, if_true]
    have hrunq : (optStage "Query" (o.query.map applyQuery)).run
        (runChain [optStage "Authenticate" (o.authenticate.map applyAuthenticate),
          optStage "Authorize" (o.authorize.map applyAuthorize)] r0).2
        = applyQuery q (logStage "Query"
            (runChain [optStage "Authenticate" (o.authenticate.map applyAuthenticate),
              optStage "Authorize" (o.authorize.map applyAuthorize)] r0).2) := by
      simp [optStage, hq]
    have happly : ∀ x : Req, applyQuery q x = (true, { x with db := dNew }) := by
      intro x
      simp [applyQuery, hconst, applyOpt]
    rw [runChain_cons, hrunq, happly]
    simp [runChain_nil, logStage, hpre2]
  · have hcf : (runChain [optStage "Authenticate" (o.authenticate.map applyAuthenticate),
        optStage "Authorize" (o.authorize.map applyAuthorize)] r0).1 = false := by
      revert hc
      cases (runChain [optStage "Authenticate" (o.authenticate.map applyAuthenticate),
        optStage "Authorize" (o.authorize.map applyAuthorize)] r0).1 <;> simp
    rw [hcf]
    simp only [Bool.false_eq_true, if_false]
    constructor
    · exact hpre2
    · intro hcontra
      exact absurd hcontra (by simp [hcf])

/-- After the Query stage, no stage of any verb chain replaces the
per-request handle, and the fetch stages log reads through it. -/
theorem drop3_readsPres (o : RouteOptions) (dNew : DB) (v : Verb) :
    ∀ s ∈ (verbChain o v).drop 3,
      StagePres (fun r => r.db = dNew ∧ ∀ d ∈ r.reads, d = dNew) s := by
  have happend : ∀ r : Req, r.db = dNew → (∀ d ∈ r.reads, d = dNew) →
      ∀ d ∈ r.reads ++ [r.db], d = dNew := by
    intro r h1 h2 d hd
    rcases List.mem_append.mp hd with h | h
    · exact h2 d h
    · simp only [List.mem_singleton] at h
      rw [h, h1]
  have hCheck : StagePres (fun r => r.db = dNew ∧ ∀ d ∈ r.reads, d = dNew)
      (optStage "CheckUpload" (o.checkUpload.map applyCheckUpload)) := by
    refine optStage_pres _ _ (fun r h => h) ?_
    rintro f hf r h
    obtain ⟨f0, _, rfl⟩ := Option.map_eq_some'.mp hf
    refine ⟨?_, ?_⟩
    · show (applyCheckUpload f0 r).2.db = dNew
      rw [applyCheckUpload_db]
      exact h.1
    · show ∀ d ∈ (applyCheckUpload f0 r).2.reads, d = dNew
      rw [applyCheckUpload_reads]
      exact h.2
  have hEdit : StagePres (fun r => r.db = dNew ∧ ∀ d ∈ r.reads, d = dNew)
      (optStage "EditResult" (o.editResult.map applyEditResult)) := by
    refine optStage_pres _ _ (fun r h => h) ?_
    rintro f hf r h
    obtain ⟨f0, _, rfl⟩ := Option.map_eq_some'.mp hf
    refine ⟨?_, ?_⟩
    · show (applyEditResult f0 r).2.db = dNew
      rw [applyEditResult_db]
      exact h.1
    · show ∀ d ∈ (applyEditResult f0 r).2.reads, d = dNew
      rw [applyEditResult_reads]
      exact h.2
  have hGet : StagePres (fun r => r.db = dNew ∧ ∀ d ∈ r.reads, d = dNew)
      (builtin "GetItemById" getItemById) := by
    intro r h
    refine ⟨?_, ?_⟩
    · show (getItemById r).2.db = dNew
      rw [getItemById_db]
      exact h.1
    · show ∀ d ∈ (getItemById r).2.reads, d = dNew
      rw [getItemById_reads]
      exact happend r h.1 h.2
  have hGets : StagePres (fun r => r.db = dNew ∧ ∀ d ∈ r.reads, d = dNew)
      (builtin "GetItems" getItems) := by
    intro r h
    refine ⟨?_, ?_⟩
    · show (getItems r).2.db = dNew
      rw [getItems_db]
      exact h.1
    · show ∀ d ∈ (getItems r).2.reads, d = dNew
      rw [getItems_reads]
      exact happend r h.1 h.2
  have hMerge : StagePres (fun r => r.db = dNew ∧ ∀ d ∈ r.reads, d = dNew)
      (builtin "PatchResultWithUploaded" patchResultWithUploaded) := by
    intro r h
    refine ⟨?_, ?_⟩
    · show (patchResultWithUploaded r).2.db = dNew
      rw [patchResultWithUploaded_db]
      exact h.1
    · show ∀ d ∈ (patchResultWithUploaded r).2.reads, d = dNew
      rw [patchResultWithUploaded_reads]
      exact h.2
  have hPost : StagePres (fun r => r.db = dNew ∧ ∀ d ∈ r.reads, d = dNew)
      (builtin "PostDB" postDB) := by
    intro r h
    refine ⟨?_, ?_⟩
    · show (postDB r).2.db = dNew
      rw [postDB_db]
      exact h.1
    · show ∀ d ∈ (postDB r).2.reads, d = dNew
      rw [postDB_reads]
      exact h.2
  have hPatch : StagePres (fun r => r.db = dNew ∧ ∀ d ∈ r.reads, d = dNew)
      (builtin "PatchDB" patchDB) := by
    intro r h
    refine ⟨?_, ?_⟩
    · show (patchDB r).2.db = dNew
      rw [patchDB_db]
      exact h.1
    · show ∀ d ∈ (patchDB r).2.reads, d = dNew
      rw [patchDB_reads]
      exact h.2
  have hDel : StagePres (fun r => r.db = dNew ∧ ∀ d ∈ r.reads, d = dNew)
      (builtin "DeleteFromDB" deleteFromDB) := by
    intro r h
    refine ⟨?_, ?_⟩
    · show (deleteFromDB r).2.db = dNew
      rw [deleteFromDB_db]
      exact h.1
    · show ∀ d ∈ (deleteFromDB r).2.reads, d = dNew
      rw [deleteFromDB_reads]
      exact h.2
  have hSer : StagePres (fun r => r.db = dNew ∧ ∀ d ∈ r.reads, d = dNew)
      (builtin "SerialiseResult" serialiseResult) := by
    intro r h
    refine ⟨?_, ?_⟩
    · show (serialiseResult r).2.db = dNew
      rw [serialiseResult_db]
      exact h.1
    · show ∀ d ∈ (serialiseResult r).2.reads, d = dNew
      rw [serialiseResult_reads]
      exact h.2
  intro s hs
  cases v with
  | getItem =>
      rw [show (verbChain o .getItem).drop 3
          = [builtin "GetItemById" getItemById,
             optStage "EditResult" (o.editResult.map applyEditResult),
             builtin "SerialiseResult" serialiseResult] from rfl] at hs
      simp only [List.mem_cons, List.not_mem_nil, or_false] at hs
      rcases hs with rfl | rfl | rfl
      exacts [hGet, hEdit, hSer]
  | getIndex =>
      rw [show (verbChain o .getIndex).drop 3
          = [builtin "GetItems" getItems,
             optStage "EditResult" (o.editResult.map applyEditResult),
             builtin "SerialiseResult" serialiseResult] from rfl] at hs
      simp only [List.mem_cons, List.not_mem_nil, or_false] at hs
      rcases hs with rfl | rfl | rfl
      exacts [hGets, hEdit, hSer]
  | post =>
      rw [show (verbChain o .post).drop 3
          = [optStage "CheckUpload" (o.checkUpload.map applyCheckUpload),
             builtin "PostDB" postDB,
             optStage "EditResult" (o.editResult.map applyEditResult),
             builtin "SerialiseResult" serialiseResult] from rfl] at hs
      simp only [List.mem_cons, List.not_mem_nil, or_false] at hs
      rcases hs with rfl | rfl | rfl | rfl
      exacts [hCheck, hPost, hEdit, hSer]
  | patch =>
      rw [show (verbChain o .patch).drop 3
          = [builtin "GetItemById" getItemById,
             builtin "PatchResultWithUploaded" patchResultWithUploaded,
             optStage "CheckUpload" (o.checkUpload.map applyCheckUpload),
             builtin "PatchDB" patchDB,
             optStage "EditResult" (o.editResult.map applyEditResult),
             builtin "SerialiseResult" serialiseResult] from rfl] at hs
      simp only [List.mem_cons, List.not_mem_nil, or_false] at hs
      rcases hs with rfl | rfl | rfl | rfl | rfl | rfl
      exacts [hGet, hMerge, hCheck, hPatch, hEdit, hSer]
  | delete =>
      rw [show (verbChain o .delete).drop 3
          = [builtin "GetItemById" getItemById,
             builtin "DeleteFromDB" deleteFromDB,
             optStage "EditResult" (o.editResult.map applyEditResult),
             builtin "SerialiseResult" serialiseResult] from rfl] at hs
      simp only [List.mem_cons, List.not_mem_nil, or_false] at hs
      rcases hs with rfl | rfl | rfl | rfl
      exacts [hGet, hDel, hEdit, hSer]

/-- For a verb whose chain starts Authenticate–Authorize–Query, a
constant scoping Query callback makes every logged read lookup use the
replacement handle. -/
theorem scopedReads (g : Grapi) (ty : Model) (o : RouteOptions) (inp : Input) (v : Verb)
    (q : QueryLimiter) (dNew : DB) (hq : o.query = some q)
    (hconst : ∀ r, q r = { ok := true, setDb := some dNew })
    (htake : (verbChain o v).take 3
      = [optStage "Authenticate" (o.authenticate.map applyAuthenticate),
         optStage "Authorize" (o.authorize.map applyAuthorize),
         optStage "Query" (o.query.map applyQuery)]) :
    ∀ d ∈ (runVerb g ty o inp v).2.reads, d = dNew := by
  have hEq : runVerb g ty o inp v
      = if (runChain ((verbChain o v).take 3) (mkRequest g (verbMethod v) ty inp)).1
        then runChain ((verbChain o v).drop 3)
          (runChain ((verbChain o v).take 3) (mkRequest g (verbMethod v) ty inp)).2
        else runChain ((verbChain o v).take 3) (mkRequest g (verbMethod v) ty inp) := by
    rw [runVerb]
    conv_lhs => rw [← List.take_append_drop 3 (verbChain o v)]
    exact runChain_append _ _ _
  have hfacts := queryPrefixFacts o q dNew hq hconst (mkRequest g (verbMethod v) ty inp) rfl
  rw [← htake] at hfacts
  by_cases hc : (runChain ((verbChain o v).take 3)
      (mkRequest g (verbMethod v) ty inp)).1 = true
  · have hstate : (runChain ((verbChain o v).take 3)
        (mkRequest g (verbMethod v) ty inp)).2.db = dNew ∧
        ∀ d ∈ (runChain ((verbChain o v).take 3)
          (mkRequest g (verbMethod v) ty inp)).2.reads, d = dNew := by
      refine ⟨hfacts.2 hc, ?_⟩
      intro d hd
      rw [hfacts.1] at hd
      simp at hd
    have hfinal := runChain_pres (drop3_readsPres o dNew v) hstate
    rw [hEq]
    simp only [hc, if_true]
    exact hfinal.2
  · have hcf : (runChain ((verbChain o v).take 3)
        (mkRequest g (verbMethod v) ty inp)).1 = false := by
      revert hc
      cases (runChain ((verbChain o v).take 3) (mkRequest g (verbMethod v) ty inp)).1 <;> simp
    rw [hEq, hcf]
    simp only [Bool.false_eq_true, if_false]
    intro d hd
    rw [hfacts.1] at hd
    simp at hd

/-- C3: the create, update and delete stages always invoke the store
through the original unscoped handle held by the Grapi instance
(`r.api.db`), for every verb and any configuration; and when a configured
Query stage replaces the per-request handle via SetDB, the built-in
fetch-by-id and fetch-all stages perform their lookups through the
replacement handle, never the writes. -/
theorem unscopedWrites
    (g : Grapi) (ty : Model) (o : RouteOptions) (inp : Input) (v : Verb)
    (q : QueryLimiter) (dNew : DB)
    (hq : o.query = some q)
    (hconst : ∀ r, q r = { ok := true, setDb := some dNew }) :
    (∀ v' : Verb, ∀ ev ∈ (runVerb g ty o inp v').2.writes, ev.db = g.db) ∧
    (∀ d ∈ (runVerb g ty o inp v).2.reads, d = dNew) := by
  constructor
  · intro v'
    have h := runChain_pres (chain_writesTag o v' g.db)
      (r := mkRequest g (verbMethod v') ty inp) ⟨rfl, by simp [mkRequest]⟩
    exact h.2
  · cases v with
    | post =>
        have hnil : (runVerb g ty o inp .post).2.reads = [] := by
          show (runChain (verbChain o .post) (mkRequest g (verbMethod .post) ty inp)).2.reads = []
          refine runChain_pres (P := fun r => r.reads = []) ?_ rfl
          intro s hs
          simp only [verbChain, postChain, List.mem_cons, List.not_mem_nil, or_false] at hs
          rcases hs with rfl | rfl | rfl | rfl | rfl | rfl | rfl
          · refine optStage_pres _ _ (fun r h => h) ?_
            rintro f hf r h
            obtain ⟨f0, _, rfl⟩ := Option.map_eq_some'.mp hf
            show (applyAuthenticate f0 r).2.reads = []
            rw [applyAuthenticate_reads]
            exact h
          · refine optStage_pres _ _ (fun r h => h) ?_
            rintro f hf r h
            obtain ⟨f0, _, rfl⟩ := Option.map_eq_some'.mp hf
            show (applyAuthorize f0 r).2.reads = []
            rw [applyAuthorize_reads]
            exact h
          · intro r h
            show (parseUpload r).2.reads = []
            rw [parseUpload_reads]
            exact h
          · refine optStage_pres _ _ (fun r h => h) ?_
            rintro f hf r h
            obtain ⟨f0, _, rfl⟩ := Option.map_eq_some'.mp hf
            show (applyCheckUpload f0 r).2.reads = []
            rw [applyCheckUpload_reads]
            exact h
          · intro r h
            show (postDB r).2.reads = []
            rw [postDB_reads]
            exact h
          · refine optStage_pres _ _ (fun r h => h) ?_
            rintro f hf r h
            obtain ⟨f0, _, rfl⟩ := Option.map_eq_some'.mp hf
            show (applyEditResult f0 r).2.reads = []
            rw [applyEditResult_reads]
            exact h
          · intro r h
            show (serialiseResult r).2.reads = []
            rw [serialiseResult_reads]
            exact h
        intro d hd
        rw [hnil] at hd
        simp at hd
    | getItem => exact scopedReads g ty o inp .getItem q dNew hq hconst rfl
    | getIndex => exact scopedReads g ty o inp .getIndex q dNew hq hconst rfl
    | patch => exact scopedReads g ty o inp .patch q dNew hq hconst rfl
    | delete => exact scopedReads g ty o inp .delete q dNew hq hconst rfl

/-- Witness for C3 at the PATCH verb with a constant scoping
callback: writes go through `gW.db`, reads through the narrowed
handle. -/
theorem unscopedWrites_witness :
    (∀ v' : Verb, ∀ ev ∈ (runVerb gW tyW oScoped inpPatchName v').2.writes, ev.db = gW.db) ∧
    (∀ d ∈ (runVerb gW tyW oScoped inpPatchName .patch).2.reads, d = dScoped) :=
  unscopedWrites gW tyW oScoped inpPatchName .patch
    (fun _ => { ok := true, setDb := some dScoped }) dScoped rfl (fun _ => rfl)

/-!
## C7 — the default authenticator
-/

/-- C7: under the default authenticator, a missing, invalid, expired or
mis-signed bearer token (token codec outcome `absent` or `invalid`), or a
valid token whose embedded subject the LoginModel collaborator cannot
resolve, writes a 401 response and reports failure; a valid token with a
resolvable subject binds the resolved principal into the request via
SetLoginObject and reports success. -/
theorem defaultAuthBehavior (g : Grapi) (r : Req) :
    ((r.token = .absent ∨ r.token = .invalid) →
      applyAuthenticate g.defaultAuthenticator r
        = (false, { r with responses := r.responses ++ [⟨401, .text "Unauthorized"⟩] })) ∧
    (∀ subj, r.token = .valid subj → r.options.loginModel.getById subj = none →
      applyAuthenticate g.defaultAuthenticator r
        = (false, { r with responses := r.responses ++ [⟨401, .text "Unauthorized"⟩] })) ∧
    (∀ subj u, r.token = .valid subj → r.options.loginModel.getById subj = some u →
      applyAuthenticate g.defaultAuthenticator r
        = (true, { r with loginObject := some u })) := by
  refine ⟨?_, ?_, ?_⟩
  · intro h
    rcases h with h | h <;>
      simp [applyAuthenticate, Grapi.defaultAuthenticator, h, applyOpt]
  · intro subj h1 h2
    simp [applyAuthenticate, Grapi.defaultAuthenticator, h1, h2, applyOpt]
  · intro subj u h1 h2
    simp [applyAuthenticate, Grapi.defaultAuthenticator, h1, h2, applyOpt]

/-- Witness for C7: the invalid token yields 401 and failure; the valid
token for subject 5 binds principal 99 and succeeds. -/
theorem defaultAuthBehavior_witness :
    applyAuthenticate gAuth.defaultAuthenticator rBadTok
      = (false, { rBadTok with responses := rBadTok.responses ++ [⟨401, .text "Unauthorized"⟩] }) ∧
    applyAuthenticate gAuth.defaultAuthenticator rTok
      = (true, { rTok with loginObject := some 99 }) :=
  ⟨(defaultAuthBehavior gAuth rBadTok).1 (Or.inr rfl),
   (defaultAuthBehavior gAuth rTok).2.2 5 99 rfl rfl⟩

/-!
## C8 — UseDefaultAuth and a custom authenticator are exclusive
-/

/-- C8: a RouteConfig with the built-in-authenticator flag set and a
custom Authenticate callback present makes finalization fail fatally, and
the failure surfaces at route-registration time — `AddGetRoute` calls
`Initialise` and propagates the configuration error before any handler is
built, so no request is ever served; with only the flag set, finalization
installs the default authenticator into the Authenticate slot. -/
theorem useDefaultAuthConflict (g : Grapi) (ty : Model) (ro : RouteOptions)
    (hflag : ro.useDefaultAuth = true) (hinit : ro.initialised = false) :
    (∀ a, ro.authenticate = some a →
      g.AddGetRoute ty (some ro) = .error bothAuthMsg) ∧
    (ro.authenticate = none →
      ∃ ro', ro.Initialise g = .ok ro'
        ∧ ro'.authenticate = some g.defaultAuthenticator) := by
  constructor
  · intro a ha
    simp [Grapi.AddGetRoute, RouteOptions.Initialise, hinit, hflag, ha]
  · intro hb
    refine ⟨{ ro with initialised := true
                      authenticate := some g.defaultAuthenticator }, ?_, rfl⟩
    simp [RouteOptions.Initialise, hinit, hflag, hb]

/-- Witness for C8 at both a conflicting and a flag-only configuration. -/
theorem useDefaultAuthConflict_witness :
    gW.AddGetRoute tyW (some oBoth) = .error bothAuthMsg ∧
    (∃ ro', oFlagOnly.Initialise gW = .ok ro'
      ∧ ro'.authenticate = some gW.defaultAuthenticator) :=
  ⟨(useDefaultAuthConflict gW tyW oBoth rfl rfl).1 (fun _ => { ok := true }) rfl,
   (useDefaultAuthConflict gW tyW oFlagOnly rfl rfl).2 rfl⟩

/-- Running a chain of such stages: no response write on success, at most
one on failure. -/
theorem runChain_respLe :
    ∀ (chain : List NamedStage), (∀ s ∈ chain, StageRespLe s) →
      ∀ r : Req,
        ((runChain chain r).1 = true → (runChain chain r).2.responses = r.responses) ∧
        ((runChain chain r).1 = false →
          (runChain chain r).2.responses = r.responses ∨
          ∃ x, (runChain chain r).2.responses = r.responses ++ [x]) := by
  intro chain
  induction chain with
  | nil =>
      intro _ r
      refine ⟨fun _ => rfl, fun h => ?_⟩
      simp [runChain] at h
  | cons s rest ih =>
      intro h r
      have hs := h s (by simp)
      have hrest : ∀ t ∈ rest, StageRespLe t := fun t ht => h t (by simp [ht])
      by_cases hc : (s.run r).1 = true
      · have hstep : runChain (s :: rest) r = runChain rest (s.run r).2 := by
          rw [runChain_cons, hc]
          simp
        have heq : (s.run r).2.responses = r.responses := (hs r).1 hc
        rw [hstep]
        constructor
        · intro hok
          rw [(ih hrest (s.run r).2).1 hok, heq]
        · intro hko
          rcases (ih hrest (s.run r).2).2 hko with h1 | ⟨x, h1⟩
          · exact Or.inl (by rw [h1, heq])
          · exact Or.inr ⟨x, by rw [h1, heq]⟩
      · have hcf : (s.run r).1 = false := by
          revert hc
          cases (s.run r).1 <;> simp
        have hstep : runChain (s :: rest) r = (false, (s.run r).2) := by
          rw [runChain_cons, hcf]
          simp
        rw [hstep]
        constructor
        · intro hok
          simp at hok
        · intro _
          exact (hs r).2 hcf

/-- The serializer writes exactly one response, on success and on each
of its failure outcomes alike. -/
theorem serialiseResult_appendsOne (r : Req) :
    ∃ x, (serialiseResult r).2.responses = r.responses ++ [x] := by
  simp only [serialiseResult]
  split
  · refine ⟨⟨404, .text "Not Found"⟩, ?_⟩
    simp [respond, logStage]
  · rename_i v heq
    split
    · refine ⟨⟨200, .jsonResult v⟩, ?_⟩
      simp [respond, logStage]
    · refine ⟨⟨422, .text "Failed to encode JSON"⟩, ?_⟩
      simp [respond, logStage]

theorem respond_responses (status : Nat) (b : RespBody) (r : Req) :
    (respond status b r).responses = r.responses ++ [⟨status, b⟩] := rfl

theorem validateUploaded_respLe (r : Req) :
    ((validateUploaded r).1 = true → (validateUploaded r).2.responses = r.responses) ∧
    ((validateUploaded r).1 = false →
      (validateUploaded r).2.responses = r.responses ∨
      ∃ x, (validateUploaded r).2.responses = r.responses ++ [x]) := by
  simp only [validateUploaded]
  split
  · split
    · constructor
      · intro h
        simp at h
      · intro _
        exact Or.inr ⟨_, respond_responses _ _ _⟩
    · exact ⟨fun _ => rfl, fun h => by simp at h⟩
  · exact ⟨fun _ => rfl, fun h => by simp at h⟩

theorem getItemById_respLe (r : Req) :
    ((getItemById r).1 = true → (getItemById r).2.responses = r.responses) ∧
    ((getItemById r).1 = false →
      (getItemById r).2.responses = r.responses ∨
      ∃ x, (getItemById r).2.responses = r.responses ++ [x]) := by
  simp only [getItemById]
  split
  · constructor
    · intro h
      simp at h
    · intro _
      exact Or.inr ⟨_, respond_responses _ _ _⟩
  · exact ⟨fun _ => rfl, fun h => by simp at h⟩

theorem getItems_respLe (r : Req) :
    ((getItems r).1 = true → (getItems r).2.responses = r.responses) ∧
    ((getItems r).1 = false →
      (getItems r).2.responses = r.responses ∨
      ∃ x, (getItems r).2.responses = r.responses ++ [x]) :=
  ⟨fun _ => rfl, fun h => by simp [getItems] at h⟩

theorem parseUpload_respLe (r : Req) :
    ((parseUpload r).1 = true → (parseUpload r).2.responses = r.responses) ∧
    ((parseUpload r).1 = false →
      (parseUpload r).2.responses = r.responses ∨
      ∃ x, (parseUpload r).2.responses = r.responses ++ [x]) := by
  simp only [parseUpload]
  split
  · constructor
    · intro h
      simp at h
    · intro _
      exact Or.inr ⟨_, respond_responses _ _ _⟩
  · exact validateUploaded_respLe _

theorem patchResultWithUploaded_respLe (r : Req) :
    ((patchResultWithUploaded r).1 = true →
      (patchResultWithUploaded r).2.responses = r.responses) ∧
    ((patchResultWithUploaded r).1 = false →
      (patchResultWithUploaded r).2.responses = r.responses ∨
      ∃ x, (patchResultWithUploaded r).2.responses = r.responses ++ [x]) := by
  simp only [patchResultWithUploaded]
  split
  · constructor
    · intro h
      simp at h
    · intro _
      exact Or.inr ⟨_, respond_responses _ _ _⟩
  · split
    · split
      · constructor
        · intro h
          simp at h
        · intro _
          exact Or.inr ⟨_, respond_responses _ _ _⟩
      · exact validateUploaded_respLe _
    · constructor
      · intro h
        simp at h
      · intro _
        exact Or.inr ⟨_, respond_responses _ _ _⟩

theorem postDB_respLe (r : Req) :
    ((postDB r).1 = true → (postDB r).2.responses = r.responses) ∧
    ((postDB r).1 = false →
      (postDB r).2.responses = r.responses ∨
      ∃ x, (postDB r).2.responses = r.responses ++ [x]) := by
  simp only [postDB]
  split
  · constructor
    · intro h
      simp at h
    · intro _
      exact Or.inr ⟨_, respond_responses _ _ _⟩
  · exact ⟨fun _ => rfl, fun h => by simp at h⟩

theorem patchDB_respLe (r : Req) :
    ((patchDB r).1 = true → (patchDB r).2.responses = r.responses) ∧
    ((patchDB r).1 = false →
      (patchDB r).2.responses = r.responses ∨
      ∃ x, (patchDB r).2.responses = r.responses ++ [x]) :=
  ⟨fun _ => rfl, fun h => by simp [patchDB] at h⟩

theorem deleteFromDB_respLe (r : Req) :
    ((deleteFromDB r).1 = true → (deleteFromDB r).2.responses = r.responses) ∧
    ((deleteFromDB r).1 = false →
      (deleteFromDB r).2.responses = r.responses ∨
      ∃ x, (deleteFromDB r).2.responses = r.responses ++ [x]) :=
  ⟨fun _ => rfl, fun h => by simp [deleteFromDB] at h⟩

theorem runChain_singleton (s : NamedStage) (r : Req) :
    (runChain [s] r).2 = (s.run r).2 := by
  rw [runChain_cons]
  split <;> simp [runChain_nil]

/-- Under the stage contract, every stage before the serializer in every
verb chain writes nothing on success and at most one response on
failure (a failing Query or EditResult callback writes nothing at all). -/
theorem front_respLe (o : RouteOptions) (v : Verb) (hgood : GoodCallbacks o) :
    ∀ s ∈ (verbChain o v).dropLast, StageRespLe s := by
  have hAuth : StageRespLe
      (optStage "Authenticate" (o.authenticate.map applyAuthenticate)) := by
    intro r
    cases hc : o.authenticate with
    | none =>
        refine ⟨fun _ => by simp [optStage], fun h => by simp [optStage] at h⟩
    | some f =>
        constructor
        · intro hok
          have hok2 : (f (logStage "Authenticate" r)).ok = true := by
            simpa [optStage, applyAuthenticate] using hok
          have hw := (hgood.1 f hc (logStage "Authenticate" r)).1 hok2
          show (logStage "Authenticate" r).responses
              ++ (f (logStage "Authenticate" r)).writesResp = r.responses
          rw [hw]
          simp [logStage]
        · intro hko
          have hko2 : (f (logStage "Authenticate" r)).ok = false := by
            simpa [optStage, applyAuthenticate] using hko
          have hw := (hgood.1 f hc (logStage "Authenticate" r)).2 hko2
          rcases List.length_eq_one.mp hw with ⟨x, hx⟩
          refine Or.inr ⟨x, ?_⟩
          show (logStage "Authenticate" r).responses
              ++ (f (logStage "Authenticate" r)).writesResp = r.responses ++ [x]
          rw [hx]
          simp [logStage]
  have hAuthz : StageRespLe
      (optStage "Authorize" (o.authorize.map applyAuthorize)) := by
    intro r
    cases hc : o.authorize with
    | none =>
        refine ⟨fun _ => by simp [optStage], fun h => by simp [optStage] at h⟩
    | some f =>
        constructor
        · intro hok
          have hok2 : (f (logStage "Authorize" r)).ok = true := by
            simpa [optStage, applyAuthorize] using hok
          have hw := (hgood.2.1 f hc (logStage "Authorize" r)).1 hok2
          show (logStage "Authorize" r).responses
              ++ (f (logStage "Authorize" r)).writesResp = r.responses
          rw [hw]
          simp [logStage]
        · intro hko
          have hko2 : (f (logStage "Authorize" r)).ok = false := by
            simpa [optStage, applyAuthorize] using hko
          have hw := (hgood.2.1 f hc (logStage "Authorize" r)).2 hko2
          rcases List.length_eq_one.mp hw with ⟨x, hx⟩
          refine Or.inr ⟨x, ?_⟩
          show (logStage "Authorize" r).responses
              ++ (f (logStage "Authorize" r)).writesResp = r.responses ++ [x]
          rw [hx]
          simp [logStage]
  have hCheck : StageRespLe
      (optStage "CheckUpload" (o.checkUpload.map applyCheckUpload)) := by
    intro r
    cases hc : o.checkUpload with
    | none =>
        refine ⟨fun _ => by simp [optStage], fun h => by simp [optStage] at h⟩
    | some f =>
        constructor
        · intro hok
          have hok2 : (f (logStage "CheckUpload" r)).ok = true := by
            simpa [optStage, applyCheckUpload] using hok
          have hw := (hgood.2.2 f hc (logStage "CheckUpload" r)).1 hok2
          show (logStage "CheckUpload" r).responses
              ++ (f (logStage "CheckUpload" r)).writesResp = r.responses
          rw [hw]
          simp [logStage]
        · intro hko
          have hko2 : (f (logStage "CheckUpload" r)).ok = false := by
            simpa [optStage, applyCheckUpload] using hko
          have hw := (hgood.2.2 f hc (logStage "CheckUpload" r)).2 hko2
          rcases List.length_eq_one.mp hw with ⟨x, hx⟩
          refine Or.inr ⟨x, ?_⟩
          show (logStage "CheckUpload" r).responses
              ++ (f (logStage "CheckUpload" r)).writesResp = r.responses ++ [x]
          rw [hx]
          simp [logStage]
  have hQ : StageRespLe (optStage "Query" (o.query.map applyQuery)) := by
    intro r
    cases hc : o.query with
    | none =>
        refine ⟨fun _ => by simp [optStage], fun h => by simp [optStage] at h⟩
    | some f => exact ⟨fun _ => rfl, fun _ => Or.inl rfl⟩
  have hE : StageRespLe (optStage "EditResult" (o.editResult.map applyEditResult)) := by
    intro r
    cases hc : o.editResult with
    | none =>
        refine ⟨fun _ => by simp [optStage], fun h => by simp [optStage] at h⟩
    | some f => exact ⟨fun _ => rfl, fun _ => Or.inl rfl⟩
  have hGet : StageRespLe (builtin "GetItemById" getItemById) :=
    fun r => getItemById_respLe r
  have hGets : StageRespLe (builtin "GetItems" getItems) :=
    fun r => getItems_respLe r
  have hParse : StageRespLe (builtin "ParseUpload" parseUpload) :=
    fun r => parseUpload_respLe r
  have hMerge : StageRespLe (builtin "PatchResultWithUploaded" patchResultWithUploaded) :=
    fun r => patchResultWithUploaded_respLe r
  have hPost : StageRespLe (builtin "PostDB" postDB) :=
    fun r => postDB_respLe r
  have hPatch : StageRespLe (builtin "PatchDB" patchDB) :=
    fun r => patchDB_respLe r
  have hDel : StageRespLe (builtin "DeleteFromDB" deleteFromDB) :=
    fun r => deleteFromDB_respLe r
  intro s hs
  cases v with
  | getItem =>
      rw [show (verbChain o .getItem).dropLast
          = [optStage "Authenticate" (o.authenticate.map applyAuthenticate),
             optStage "Authorize" (o.authorize.map applyAuthorize),
             optStage "Query" (o.query.map applyQuery),
             builtin "GetItemById" getItemById,
             optStage "EditResult" (o.editResult.map applyEditResult)] from rfl] at hs
      simp only [List.mem_cons, List.not_mem_nil, or_false] at hs
      rcases hs with rfl | rfl | rfl | rfl | rfl
      exacts [hAuth, hAuthz, hQ, hGet, hE]
  | getIndex =>
      rw [show (verbChain o .getIndex).dropLast
          = [optStage "Authenticate" (o.authenticate.map applyAuthenticate),
             optStage "Authorize" (o.authorize.map applyAuthorize),
             optStage "Query" (o.query.map applyQuery),
             builtin "GetItems" getItems,
             optStage "EditResult" (o.editResult.map applyEditResult)] from rfl] at hs
      simp only [List.mem_cons, List.not_mem_nil, or_false] at hs
      rcases hs with rfl | rfl | rfl | rfl | rfl
      exacts [hAuth, hAuthz, hQ, hGets, hE]
  | post =>
      rw [show (verbChain o .post).dropLast
          = [optStage "Authenticate" (o.authenticate.map applyAuthenticate),
             optStage "Authorize" (o.authorize.map applyAuthorize),
             builtin "ParseUpload" parseUpload,
             optStage "CheckUpload" (o.checkUpload.map applyCheckUpload),
             builtin "PostDB" postDB,
             optStage "EditResult" (o.editResult.map applyEditResult)] from rfl] at hs
      simp only [List.mem_cons, List.not_mem_nil, or_false] at hs
      rcases hs with rfl | rfl | rfl | rfl | rfl | rfl
      exacts [hAuth, hAuthz, hParse, hCheck, hPost, hE]
  | patch =>
      rw [show (verbChain o .patch).dropLast
          = [optStage "Authenticate" (o.authenticate.map applyAuthenticate),
             optStage "Authorize" (o.authorize.map applyAuthorize),
             optStage "Query" (o.query.map applyQuery),
             builtin "GetItemById" getItemById,
             builtin "PatchResultWithUploaded" patchResultWithUploaded,
             optStage "CheckUpload" (o.checkUpload.map applyCheckUpload),
             builtin "PatchDB" patchDB,
             optStage "EditResult" (o.editResult.map applyEditResult)] from rfl] at hs
      simp only [List.mem_cons, List.not_mem_nil, or_false] at hs
      rcases hs with rfl | rfl | rfl | rfl | rfl | rfl | rfl | rfl
      exacts [hAuth, hAuthz, hQ, hGet, hMerge, hCheck, hPatch, hE]
  | delete =>
      rw [show (verbChain o .delete).dropLast
          = [optStage "Authenticate" (o.authenticate.map applyAuthenticate),
             optStage "Authorize" (o.authorize.map applyAuthorize),
             optStage "Query" (o.query.map applyQuery),
             builtin "GetItemById" getItemById,
             builtin "DeleteFromDB" deleteFromDB,
             optStage "EditResult" (o.editResult.map applyEditResult)] from rfl] at hs
      simp only [List.mem_cons, List.not_mem_nil, or_false] at hs
      rcases hs with rfl | rfl | rfl | rfl | rfl | rfl
      exacts [hAuth, hAuthz, hQ, hGet, hDel, hE]

/-- C9 (amended): under the stage contract (every response-capable
callback — Authenticate, Authorize, CheckUpload — writes exactly one
response when failing and none when succeeding), every pipeline run
writes at most one response, and a successful run writes exactly one.  A
terminal outcome need not write exactly one: a failing Query or
EditResult callback, whose capability views expose no response writer,
halts the chain with zero responses written. -/
theorem atMostOneResponse
    (g : Grapi) (ty : Model) (o : RouteOptions) (inp : Input) (v : Verb)
    (hgood : GoodCallbacks o) :
    (runVerb g ty o inp v).2.responses.length ≤ 1 ∧
    ((runVerb g ty o inp v).1 = true →
      (runVerb g ty o inp v).2.responses.length = 1) := by
  have hsplit : verbChain o v
      = (verbChain o v).dropLast ++ [builtin "SerialiseResult" serialiseResult] := by
    cases v <;> rfl
  have hfront := runChain_respLe ((verbChain o v).dropLast) (front_respLe o v hgood)
    (mkRequest g (verbMethod v) ty inp)
  have hEq : runVerb g ty o inp v
      = if (runChain ((verbChain o v).dropLast) (mkRequest g (verbMethod v) ty inp)).1
        then runChain [builtin "SerialiseResult" serialiseResult]
          (runChain ((verbChain o v).dropLast) (mkRequest g (verbMethod v) ty inp)).2
        else runChain ((verbChain o v).dropLast) (mkRequest g (verbMethod v) ty inp) := by
    rw [runVerb]
    conv_lhs => rw [hsplit]
    exact runChain_append _ _ _
  have hr0 : (mkRequest g (verbMethod v) ty inp).responses = [] := rfl
  by_cases hc : (runChain ((verbChain o v).dropLast)
      (mkRequest g (verbMethod v) ty inp)).1 = true
  · have hresp0 : (runChain ((verbChain o v).dropLast)
        (mkRequest g (verbMethod v) ty inp)).2.responses = [] := by
      rw [hfront.1 hc, hr0]
    rcases serialiseResult_appendsOne (runChain ((verbChain o v).dropLast)
        (mkRequest g (verbMethod v) ty inp)).2 with ⟨x, hx⟩
    have hfin : (runVerb g ty o inp v).2.responses = [x] := by
      rw [hEq]
      simp only [hc, if_true]
      rw [runChain_singleton, builtin_run, hx, hresp0]
      rfl
    rw [hfin]
    exact ⟨by simp, fun _ => by simp⟩
  · have hcf : (runChain ((verbChain o v).dropLast)
        (mkRequest g (verbMethod v) ty inp)).1 = false := by
      revert hc
      cases (runChain ((verbChain o v).dropLast) (mkRequest g (verbMethod v) ty inp)).1 <;>
        simp
    have hfin : runVerb g ty o inp v
        = runChain ((verbChain o v).dropLast) (mkRequest g (verbMethod v) ty inp) := by
      rw [hEq, hcf]
      simp
    constructor
    · rcases hfront.2 hcf with h1 | ⟨x, h1⟩
      · rw [hfin, h1, hr0]
        simp
      · rw [hfin, h1, hr0]
        simp
    · intro habs
      rw [hfin, hcf] at habs
      cases habs

/-- Counterexample to C9 as stated: a failing EditResult callback is a
terminal outcome after which the pipeline has written no response at all
(zero writes, not exactly one). -/
theorem atMostOneResponse_counterexample :
    (runVerb gW tyW oEditFail inpW .getItem).1 = false ∧
    (runVerb gW tyW oEditFail inpW .getItem).2.responses = [] :=
  ⟨rfl, rfl⟩

/-- Witness for C9 (amended) at a configuration with a failing Authorize
callback that writes its one 403 response. -/
theorem atMostOneResponse_witness :
    (runVerb gW tyW oAuthzFail inpW .getItem).2.responses.length ≤ 1 ∧
    ((runVerb gW tyW oAuthzFail inpW .getItem).1 = true →
      (runVerb gW tyW oAuthzFail inpW .getItem).2.responses.length = 1) := by
  refine atMostOneResponse gW tyW oAuthzFail inpW .getItem ⟨?_, ?_, ?_⟩
  · intro f hf
    exact Option.noConfusion hf
  · intro f hf r
    have hcf := Option.some.inj hf
    rw [← hcf]
    constructor
    · intro h
      cases h
    · intro _
      rfl
  · intro f hf
    exact Option.noConfusion hf

/-!
## C10 — GET index and the serializer's 404
-/

/-- Serializing a present result writes exactly one response, and its
status is 200 or 422, never the empty-result 404. -/
theorem serialiseResult_some_not404 (r : Req) (rv : ResultVal)
    (h : r.result = some rv) :
    ∃ x, (serialiseResult r).2.responses = r.responses ++ [x] ∧ x.status ≠ 404 := by
  have h2 : (logStage "SerialiseResult" r).result = some rv := h
  simp only [serialiseResult, h2]
  split
  · refine ⟨⟨200, .jsonResult rv⟩, respond_responses _ _ _, ?_⟩
    simp
  · refine ⟨⟨422, .text "Failed to encode JSON"⟩, respond_responses _ _ _, ?_⟩
    simp

/-- Serializing a slice result always succeeds with a 200 carrying the
encoded slice. -/
theorem serialiseResult_items (r : Req) (l : List Item)
    (h : r.result = some (.items l)) :
    serialiseResult r
      = (true, respond 200 (.jsonResult (.items l)) (logStage "SerialiseResult" r)) := by
  have h2 : (logStage "SerialiseResult" r).result = some (.items l) := h
  simp only [serialiseResult, h2, encodes, if_true]

/-- C10 (amended): the fetch-all stage always succeeds and always sets
the result to a non-nil (possibly empty) slice, so a GET-index request
never yields the serializer's empty-result 404 — provided any configured
EditResult callback does not clear the result (an EditResult that calls
SetResult(nil) does reach the 404 branch); with no EditResult configured,
a request matching no records gets 200 with the empty JSON array. -/
theorem indexEmpty200
    (g : Grapi) (ty : Model) (o : RouteOptions) (inp : Input)
    (hEditPres : ∀ f, o.editResult = some f → ∀ r, (f r).setResult ≠ some none)
    (hpre : (runChain ((indexChain o).take 3) (mkRequest g "GET" ty inp)).1 = true) :
    (∀ r : Req, (getItems r).1 = true ∧
      (getItems r).2.result = some (.items r.db.records)) ∧
    (∀ x ∈ (g.indexHandler ty o inp).2.responses.drop
        (runChain ((indexChain o).take 3) (mkRequest g "GET" ty inp)).2.responses.length,
      x.status ≠ 404) ∧
    (o.editResult = none →
      (g.indexHandler ty o inp).1 = true ∧
      (g.indexHandler ty o inp).2.responses
        = (runChain ((indexChain o).take 3) (mkRequest g "GET" ty inp)).2.responses
          ++ [⟨200, .jsonResult (.items (runChain ((indexChain o).take 3)
              (mkRequest g "GET" ty inp)).2.db.records)⟩]) := by
  have hsplit := runChain_split (indexChain o) 3 (mkRequest g "GET" ty inp) hpre
  have hrun0 : g.indexHandler ty o inp
      = runChain [builtin "GetItems" getItems,
          optStage "EditResult" (o.editResult.map applyEditResult),
          builtin "SerialiseResult" serialiseResult]
          (runChain ((indexChain o).take 3) (mkRequest g "GET" ty inp)).2 := by
    show runChain (indexChain o) (mkRequest g "GET" ty inp) = _
    rw [hsplit]
    rfl
  have hstep1 : ∀ s3 : Req, runChain [builtin "GetItems" getItems,
      optStage "EditResult" (o.editResult.map applyEditResult),
      builtin "SerialiseResult" serialiseResult] s3
      = runChain [optStage "EditResult" (o.editResult.map applyEditResult),
          builtin "SerialiseResult" serialiseResult] (getItems s3).2 := by
    intro s3
    rw [runChain_cons, builtin_run]
    simp [show (getItems s3).1 = true from rfl]
  have htail : ∀ s4 : Req, ∀ rv, s4.result = some rv →
      ∀ x ∈ (runChain [optStage "EditResult" (o.editResult.map applyEditResult),
          builtin "SerialiseResult" serialiseResult] s4).2.responses.drop
            s4.responses.length, x.status ≠ 404 := by
    intro s4 rv hres
    cases hoe : o.editResult with
    | none =>
        have h2 : runChain [optStage "EditResult" (Option.map applyEditResult none),
            builtin "SerialiseResult" serialiseResult] s4
            = runChain [builtin "SerialiseResult" serialiseResult] s4 := by
          rw [runChain_cons]
          simp [optStage]
        rw [h2]
        intro x hx
        rcases serialiseResult_some_not404 s4 rv hres with ⟨y, hy, hyn⟩
        have h3 : (runChain [builtin "SerialiseResult" serialiseResult] s4).2.responses
            = s4.responses ++ [y] := by
          rw [runChain_singleton, builtin_run, hy]
        rw [h3, List.drop_left] at hx
        simp only [List.mem_singleton] at hx
        rw [hx]
        exact hyn
    | some f =>
        rw [show Option.map applyEditResult (some f) = some (applyEditResult f) from rfl,
          runChain_cons,
          show (optStage "EditResult" (some (applyEditResult f))).run s4
            = applyEditResult f (logStage "EditResult" s4) from rfl]
        by_cases hok : (applyEditResult f (logStage "EditResult" s4)).1 = true
        · rw [hok]
          simp only [if_true]
          intro x hx
          have hresp5 : (applyEditResult f (logStage "EditResult" s4)).2.responses
              = s4.responses := rfl
          obtain ⟨rv2, hres5⟩ : ∃ rv2,
              (applyEditResult f (logStage "EditResult" s4)).2.result = some rv2 := by
            cases hsr : (f (logStage "EditResult" s4)).setResult with
            | none =>
                refine ⟨rv, ?_⟩
                show applyOpt (f (logStage "EditResult" s4)).setResult
                    (logStage "EditResult" s4).result = some rv
                rw [hsr]
                exact hres
            | some v =>
                cases v with
                | none => exact absurd hsr (hEditPres f hoe _)
                | some rv2 =>
                    refine ⟨rv2, ?_⟩
                    show applyOpt (f (logStage "EditResult" s4)).setResult
                        (logStage "EditResult" s4).result = some rv2
                    rw [hsr]
                    rfl
          rcases serialiseResult_some_not404 _ rv2 hres5 with ⟨y, hy, hyn⟩
          have hfin : (runChain [builtin "SerialiseResult" serialiseResult]
              (applyEditResult f (logStage "EditResult" s4)).2).2.responses
              = s4.responses ++ [y] := by
            rw [runChain_singleton, builtin_run, hy, hresp5]
          rw [hfin, List.drop_left] at hx
          simp only [List.mem_singleton] at hx
          rw [hx]
          exact hyn
        · have hokf : (applyEditResult f (logStage "EditResult" s4)).1 = false := by
            revert hok
            cases (applyEditResult f (logStage "EditResult" s4)).1 <;> simp
          rw [hokf]
          simp only [Bool.false_eq_true, if_false]
          intro x hx
          have h0 : (applyEditResult f (logStage "EditResult" s4)).2.responses
              = s4.responses := rfl
          rw [show ((false, (applyEditResult f (logStage "EditResult" s4)).2) :
              Bool × Req).2.responses
              = (applyEditResult f (logStage "EditResult" s4)).2.responses from rfl,
            h0, List.drop_length] at hx
          exact absurd hx (List.not_mem_nil x)
  refine ⟨fun r => ⟨rfl, rfl⟩, ?_, ?_⟩
  · intro x hx
    rw [hrun0, hstep1] at hx
    exact htail (getItems (runChain ((indexChain o).take 3)
        (mkRequest g "GET" ty inp)).2).2
      (.items (runChain ((indexChain o).take 3) (mkRequest g "GET" ty inp)).2.db.records)
      rfl x hx
  · intro hoe
    have hfin : g.indexHandler ty o inp
        = (true, respond 200 (.jsonResult (.items (runChain ((indexChain o).take 3)
            (mkRequest g "GET" ty inp)).2.db.records))
            (logStage "SerialiseResult"
              (getItems (runChain ((indexChain o).take 3)
                (mkRequest g "GET" ty inp)).2).2)) := by
      rw [hrun0, hstep1, hoe]
      rw [show Option.map applyEditResult (none : Option ResultEditor) = none from rfl]
      rw [runChain_cons]
      rw [show (optStage "EditResult" (none : Option (Req → Bool × Req))).run
          (getItems (runChain ((indexChain o).take 3)
            (mkRequest g "GET" ty inp)).2).2
          = (true, (getItems (runChain ((indexChain o).take 3)
              (mkRequest g "GET" ty inp)).2).2) from rfl]
      simp only [if_true]
      rw [runChain_cons, builtin_run]
      rw [serialiseResult_items _ (runChain ((indexChain o).take 3)
          (mkRequest g "GET" ty inp)).2.db.records rfl]
      simp [runChain_nil]
    constructor
    · rw [hfin]
    · rw [hfin]
      rfl

/-- Counterexample to C10 as stated: a GET-index request can reach the
serializer's empty-result 404 after all — an EditResult callback that
clears the result makes the index pipeline answer 404, exactly the
behaviour the repository's own `TestEmptyResult` asserts. -/
theorem indexEmpty200_counterexample :
    (runVerb gW tyW oClear inpW .getIndex).1 = false ∧
    (runVerb gW tyW oClear inpW .getIndex).2.responses = [⟨404, .text "Not Found"⟩] :=
  ⟨rfl, rfl⟩

/-- Witness for C10 (amended): with no EditResult configured and an empty
store, a GET-index request is answered 200 with the empty JSON array,
never 404. -/
theorem indexEmpty200_witness :
    (∀ r : Req, (getItems r).1 = true ∧
      (getItems r).2.result = some (.items r.db.records)) ∧
    (∀ x ∈ (gEmpty.indexHandler tyW oNone inpW).2.responses.drop
        (runChain ((indexChain oNone).take 3) (mkRequest gEmpty "GET" tyW inpW)).2.responses.length,
      x.status ≠ 404) ∧
    (oNone.editResult = none →
      (gEmpty.indexHandler tyW oNone inpW).1 = true ∧
      (gEmpty.indexHandler tyW oNone inpW).2.responses
        = (runChain ((indexChain oNone).take 3) (mkRequest gEmpty "GET" tyW inpW)).2.responses
          ++ [⟨200, .jsonResult (.items (runChain ((indexChain oNone).take 3)
              (mkRequest gEmpty "GET" tyW inpW)).2.db.records)⟩]) :=
  indexEmpty200 gEmpty tyW oNone inpW (fun _ hf => Option.noConfusion hf) rfl
